import Mathlib

/-!
# jaglogger: configuration resolution of a leveled logger

A shallow embedding of `jaglogger.go` and `options.go`.

* `LogLevel` is Go's `type LogLevel int`; the six constants are `iota + 1`.
* A Go `map[K]V` is a finite partial function, `K → Option V`.  The order in
  which a `range` statement visits the keys of a map is unspecified in Go, so
  the resolution loop of `NewLogger` takes the visiting order as an argument.
* An `Option` of the source is a function that mutates a `*settings`; here it
  is a function `settings → settings`.
* An `io.Writer` is a sink, identified by what it is (`os.Stderr`,
  `os.Stdout`, or some other sink with an identity).
-/

namespace jaglogger

/-! ## Collaborators from the Go standard library -/

/-- An `io.Writer` handed to the logger: one of the two process streams or any
other value of the interface, told apart by its identity.  What a `Write` on it
does is not part of the value: whether it reports an error is `World.failing`,
and whether it panics (the nil interface value, or a sink whose `Write`
panics) is the argument `raises` of the operations named `...Raising`. -/
inductive Writer where
  | stderr
  | stdout
  | sink (id : Nat)
deriving DecidableEq, Repr

/-- The process's standard error stream, `os.Stderr`. -/
def os.Stderr : Writer := Writer.stderr

/-- The process's standard output stream, `os.Stdout`. -/
def os.Stdout : Writer := Writer.stdout

/-- Flag bits of package `log` (`1 << iota`). -/
def log.Ldate : Int := 1
def log.Ltime : Int := 2
def log.Lmicroseconds : Int := 4
def log.Llongfile : Int := 8
def log.Lshortfile : Int := 16
def log.LUTC : Int := 32
def log.Lmsgprefix : Int := 64
def log.LstdFlags : Int := Int.lor log.Ldate log.Ltime

/-- The writer `io.MultiWriter(writers...)` returns: it duplicates every write
to each of `writers`, in order. -/
structure io.multiWriter where
  writers : List Writer
deriving DecidableEq, Repr

def io.MultiWriter (writers : List Writer) : io.multiWriter := ⟨writers⟩

/-- A `log.Logger`: the output it writes to, the text it puts on each line and
the flag bits that select the header. -/
structure log.Logger where
  out : io.multiWriter
  pfx : String
  flag : Int
deriving DecidableEq, Repr

/-- The constructor `log.New(out, prefix, flag)`. -/
def log.New (out : io.multiWriter) (pfx : String) (flag : Int) : log.Logger :=
  ⟨out, pfx, flag⟩

/-- Decimal rendering of an integer, the verb `%d` of package `fmt`. -/
def fmt.decimal (n : Int) : String :=
  if n < 0 then "-" ++ Nat.repr n.natAbs else Nat.repr n.natAbs

/-! ## jaglogger.go: levels -/

/-- The source's `type LogLevel int`. -/
abbrev LogLevel := Int

def LogLevelDebug : LogLevel := 1
def LogLevelInfo : LogLevel := 2
def LogLevelNotice : LogLevel := 3
def LogLevelWarning : LogLevel := 4
def LogLevelError : LogLevel := 5
def LogLevelCritical : LogLevel := 6

/-- The method `func (ll LogLevel) String() string`. -/
def LogLevel.String (ll : LogLevel) : String :=
  if ll = LogLevelCritical then "[CRITICAL]"
  else if ll = LogLevelError then "[ERROR]"
  else if ll = LogLevelWarning then "[WARNING]"
  else if ll = LogLevelNotice then "[NOTICE]"
  else if ll = LogLevelInfo then "[INFO]"
  else if ll = LogLevelDebug then "[DEBUG]"
  else "invalid log level: " ++ fmt.decimal ll

/-! ## options.go -/

/-- Config holds the data that will be used to build the logger of a specific
log level. -/
structure Config where
  Outputs : List Writer
  Prefix : String
  Flags : Int
deriving DecidableEq, Repr

/-- The zero value `Config{}`. -/
def Config.zero : Config := ⟨[], "", 0⟩

/-- The properties an option can modify (the source's `settings`). -/
structure settings where
  LogLevelConfigs : LogLevel → Option Config
  DefaultErrOutputs : List Writer
  DefaultNonErrOutputs : List Writer
  DefaultFlags : Int

/-- The map assignment `m[k] = v`. -/
def mapSet (m : LogLevel → Option Config) (k : LogLevel) (v : Config) :
    LogLevel → Option Config :=
  fun j => if j = k then some v else m j

/-- The source's `type Option func(*settings)`. -/
abbrev LoggerOption := settings → settings

def SetCriticalLoggerOpt (config : Config) : LoggerOption :=
  fun s => { s with LogLevelConfigs := mapSet s.LogLevelConfigs LogLevelCritical config }

def SetErrorLoggerOpt (config : Config) : LoggerOption :=
  fun s => { s with LogLevelConfigs := mapSet s.LogLevelConfigs LogLevelError config }

def SetWarningLoggerOpt (config : Config) : LoggerOption :=
  fun s => { s with LogLevelConfigs := mapSet s.LogLevelConfigs LogLevelWarning config }

def SetNoticeLoggerOpt (config : Config) : LoggerOption :=
  fun s => { s with LogLevelConfigs := mapSet s.LogLevelConfigs LogLevelNotice config }

def SetInfoLoggerOpt (config : Config) : LoggerOption :=
  fun s => { s with LogLevelConfigs := mapSet s.LogLevelConfigs LogLevelInfo config }

def SetDebugLoggerOpt (config : Config) : LoggerOption :=
  fun s => { s with LogLevelConfigs := mapSet s.LogLevelConfigs LogLevelDebug config }

def SetDefaultErrorOutputsOpt (outputs : List Writer) : LoggerOption :=
  fun s => { s with DefaultErrOutputs := outputs }

def SetDefaultNonErrorOutputOpt (outputs : List Writer) : LoggerOption :=
  fun s => { s with DefaultNonErrOutputs := outputs }

def SetDefaultFlagsOpt (flag : Int) : LoggerOption :=
  fun s => { s with DefaultFlags := flag }

/-! ## jaglogger.go: NewLogger -/

/-- The source's `logger`: one `*log.Logger` per level. -/
structure logger where
  outputs : LogLevel → Option log.Logger

/-- The settings `NewLogger` starts from. -/
def initialSettings : settings where
  LogLevelConfigs := fun k =>
    if k = LogLevelCritical ∨ k = LogLevelError ∨ k = LogLevelWarning ∨
        k = LogLevelNotice ∨ k = LogLevelInfo ∨ k = LogLevelDebug
    then some Config.zero else none
  DefaultErrOutputs := [os.Stderr]
  DefaultNonErrOutputs := [os.Stdout]
  DefaultFlags := Int.lor (Int.lor log.Ldate log.Ltime) log.Llongfile

/-- The first loop of `NewLogger`: `for _, opt := range opts { opt(&loggerSettings) }`. -/
def applyOpts (opts : List LoggerOption) (s : settings) : settings :=
  opts.foldl (fun acc opt => opt acc) s

/-- The body of the second loop of `NewLogger`, up to the write-back: the value
of `conf` after the three `if` statements. -/
def resolveConf (minLevel : LogLevel) (s : settings) (logLevel : LogLevel)
    (conf : Config) : Config :=
  let conf := if conf.Flags = 0 then { conf with Flags := s.DefaultFlags } else conf
  let conf := if conf.Prefix = "" then { conf with Prefix := LogLevel.String logLevel } else conf
  if conf.Outputs.length = 0 ∧ logLevel ≥ minLevel then
    if logLevel ≥ LogLevelWarning then
      { conf with Outputs := s.DefaultErrOutputs }
    else
      { conf with Outputs := s.DefaultNonErrOutputs }
  else conf

/-- The second loop of `NewLogger`,
`for logLevel, conf := range loggerSettings.LogLevelConfigs { ... }`, visiting
the keys in the order `visit`. -/
def resolveLoop (minLevel : LogLevel) : List LogLevel → settings → settings
  | [], s => s
  | logLevel :: rest, s =>
    match s.LogLevelConfigs logLevel with
    | some conf =>
      resolveLoop minLevel rest
        { s with LogLevelConfigs :=
            mapSet s.LogLevelConfigs logLevel (resolveConf minLevel s logLevel conf) }
    | none => resolveLoop minLevel rest s

/-- The map index expression `m[k]` on a `map[LogLevel]Config`: the zero value
when the key is absent. -/
def mapIndex (m : LogLevel → Option Config) (k : LogLevel) : Config :=
  (m k).getD Config.zero

/-- The `*log.Logger` that `NewLogger` builds for one level from the resolved
settings. -/
def newLevelLogger (s : settings) (level : LogLevel) : log.Logger :=
  log.New (io.MultiWriter (mapIndex s.LogLevelConfigs level).Outputs)
    (mapIndex s.LogLevelConfigs level).Prefix
    (mapIndex s.LogLevelConfigs level).Flags

/-- The settings table at the end of the second loop of `NewLogger`. -/
def resolvedSettings (visit : List LogLevel) (minLevel : LogLevel)
    (opts : List LoggerOption) : settings :=
  resolveLoop minLevel visit (applyOpts opts initialSettings)

/-- The function `NewLogger(minLevel, opts...)`; `visit` is the order in which
the resolution loop ranges over the keys of the configuration map. -/
def NewLogger (visit : List LogLevel) (minLevel : LogLevel)
    (opts : List LoggerOption) : logger :=
  let loggerSettings := resolvedSettings visit minLevel opts
  { outputs := fun k =>
      if k = LogLevelCritical then some (newLevelLogger loggerSettings LogLevelCritical)
      else if k = LogLevelError then some (newLevelLogger loggerSettings LogLevelError)
      else if k = LogLevelWarning then some (newLevelLogger loggerSettings LogLevelWarning)
      else if k = LogLevelNotice then some (newLevelLogger loggerSettings LogLevelNotice)
      else if k = LogLevelInfo then some (newLevelLogger loggerSettings LogLevelInfo)
      else if k = LogLevelDebug then some (newLevelLogger loggerSettings LogLevelDebug)
      else none }

/-- The keys of the configuration map, in the order of the source's literal. -/
def levelKeys : List LogLevel :=
  [LogLevelCritical, LogLevelError, LogLevelWarning, LogLevelNotice, LogLevelInfo,
    LogLevelDebug]

/-! ## The exported option constructors as data -/

/-- A call of one of the nine exported option constructors.  Outside the
package an `Option` value can only be made by one of them, since `settings` is
not exported. -/
inductive OptionCall where
  | critical (config : Config)
  | error (config : Config)
  | warning (config : Config)
  | notice (config : Config)
  | info (config : Config)
  | debug (config : Config)
  | defaultErrorOutputs (outputs : List Writer)
  | defaultNonErrorOutput (outputs : List Writer)
  | defaultFlags (flag : Int)
deriving DecidableEq, Repr

/-- The `Option` value the call returns. -/
def OptionCall.toOption : OptionCall → LoggerOption
  | .critical config => SetCriticalLoggerOpt config
  | .error config => SetErrorLoggerOpt config
  | .warning config => SetWarningLoggerOpt config
  | .notice config => SetNoticeLoggerOpt config
  | .info config => SetInfoLoggerOpt config
  | .debug config => SetDebugLoggerOpt config
  | .defaultErrorOutputs outputs => SetDefaultErrorOutputsOpt outputs
  | .defaultNonErrorOutput outputs => SetDefaultNonErrorOutputOpt outputs
  | .defaultFlags flag => SetDefaultFlagsOpt flag

/-- What an option writes to: the configuration record of one level or one of
the three global defaults. -/
inductive Target where
  | level (l : LogLevel)
  | errOutputs
  | nonErrOutputs
  | flags
deriving DecidableEq, Repr

def OptionCall.target : OptionCall → Target
  | .critical _ => .level LogLevelCritical
  | .error _ => .level LogLevelError
  | .warning _ => .level LogLevelWarning
  | .notice _ => .level LogLevelNotice
  | .info _ => .level LogLevelInfo
  | .debug _ => .level LogLevelDebug
  | .defaultErrorOutputs _ => .errOutputs
  | .defaultNonErrorOutput _ => .nonErrOutputs
  | .defaultFlags _ => .flags

/-- The per-level option constructor of level `L` (`Set<L>LoggerOpt`); the
levels outside the six have none. -/
def levelCall (L : LogLevel) (config : Config) : Option OptionCall :=
  if L = LogLevelCritical then some (.critical config)
  else if L = LogLevelError then some (.error config)
  else if L = LogLevelWarning then some (.warning config)
  else if L = LogLevelNotice then some (.notice config)
  else if L = LogLevelInfo then some (.info config)
  else if L = LogLevelDebug then some (.debug config)
  else none

/-- The settings in force once every option of the call list has been applied
to the initial settings. -/
def finalSettings (calls : List OptionCall) : settings :=
  applyOpts (calls.map OptionCall.toOption) initialSettings

/-- The option list with, for each target, every option but the last one that
writes to it removed. -/
def keepLast : List OptionCall → List OptionCall
  | [] => []
  | c :: rest =>
    if rest.any (fun d => decide (d.target = c.target)) then keepLast rest
    else c :: keepLast rest

/-! ## jaglogger.go: the logging operations -/

/-- An operand of a logging call (Go's `any`): its default rendering and
whether it is a string. -/
structure any where
  text : String
  isString : Bool
deriving DecidableEq, Repr

/-- The function `fmt.Sprint`: the operands' default renderings, with a space
added between two operands when neither is a string. -/
def fmt.Sprint : List any → String
  | [] => ""
  | [a] => a.text
  | a :: b :: rest =>
    a.text ++ (if !a.isString && !b.isString then " " else "") ++ fmt.Sprint (b :: rest)

/-- What a logging call reads besides its arguments: the header that package
`log` renders for a flag value at the moment and place of the call (date, time,
source location), and the template substitution of `fmt.Sprintf`. -/
structure Env where
  header : Int → String
  Sprintf : String → List any → String

/-- The sinks: the byte strings handed to the `Write` of each one, oldest
first, and whether a `Write` on it reports an error (or a short count). -/
structure World where
  written : Writer → List String
  failing : Writer → Bool

/-- The method `Write` of a multiWriter: call `Write` on each writer in turn, stopping
after the first one that reports an error.  The result says whether an error
came back. -/
def io.multiWriter.Write : List Writer → String → World → World × Bool
  | [], _, w => (w, false)
  | x :: rest, p, w =>
    if w.failing x then
      ({ w with written := fun y => if y = x then w.written y ++ [p] else w.written y }, true)
    else io.multiWriter.Write rest p
      { w with written := fun y => if y = x then w.written y ++ [p] else w.written y }

/-- The line `log.Logger.Output` assembles: the prefix (before the header, or
after it when `Lmsgprefix` is set), the header, the text, and a newline unless
the text already ends in one. -/
def log.Logger.line (l : log.Logger) (s : String) (env : Env) : String :=
  (if Int.land l.flag log.Lmsgprefix = 0 then l.pfx else "")
    ++ env.header l.flag
    ++ (if Int.land l.flag log.Lmsgprefix = 0 then "" else l.pfx)
    ++ s
    ++ (if s.data.getLast? = some '\n' then "" else "\n")

/-- The method `log.Logger.Output(calldepth, s)`. -/
def log.Logger.Output (l : log.Logger) (_calldepth : Nat) (s : String) (env : Env)
    (w : World) : World × Bool :=
  io.multiWriter.Write l.out.writers (l.line s env) w

/-- The method `logger.log`; the error `Output` returns is dropped. -/
def logger.log (l : logger) (level : LogLevel) (v : List any) (env : Env)
    (w : World) : World :=
  match l.outputs level with
  | some logOutput => (logOutput.Output 3 (fmt.Sprint v) env w).1
  | none => w

/-- The method `logger.logf`; the error `Output` returns is dropped. -/
def logger.logf (l : logger) (level : LogLevel) (format : String) (v : List any)
    (env : Env) (w : World) : World :=
  match l.outputs level with
  | some logOutput => (logOutput.Output 3 (env.Sprintf format v) env w).1
  | none => w

def logger.Critical (l : logger) (v : List any) (env : Env) (w : World) : World :=
  l.log LogLevelCritical v env w

def logger.Criticalf (l : logger) (format : String) (v : List any) (env : Env)
    (w : World) : World :=
  l.logf LogLevelCritical format v env w

def logger.Error (l : logger) (v : List any) (env : Env) (w : World) : World :=
  l.log LogLevelError v env w

def logger.Errorf (l : logger) (format : String) (v : List any) (env : Env)
    (w : World) : World :=
  l.logf LogLevelError format v env w

def logger.Warning (l : logger) (v : List any) (env : Env) (w : World) : World :=
  l.log LogLevelWarning v env w

def logger.Warningf (l : logger) (format : String) (v : List any) (env : Env)
    (w : World) : World :=
  l.logf LogLevelWarning format v env w

def logger.Notice (l : logger) (v : List any) (env : Env) (w : World) : World :=
  l.log LogLevelNotice v env w

def logger.Noticef (l : logger) (format : String) (v : List any) (env : Env)
    (w : World) : World :=
  l.logf LogLevelNotice format v env w

def logger.Info (l : logger) (v : List any) (env : Env) (w : World) : World :=
  l.log LogLevelInfo v env w

def logger.Infof (l : logger) (format : String) (v : List any) (env : Env)
    (w : World) : World :=
  l.logf LogLevelInfo format v env w

def logger.Debug (l : logger) (v : List any) (env : Env) (w : World) : World :=
  l.log LogLevelDebug v env w

def logger.Debugf (l : logger) (format : String) (v : List any) (env : Env)
    (w : World) : World :=
  l.logf LogLevelDebug format v env w

/-! ## The logging operations when a `Write` may panic

The operations above describe a call in which every `Write` returns.  A `Write`
on the nil interface value (a nil element of `Config.Outputs` or of a default
list) panics, and so may the `Write` of a sink; nothing in `jaglogger.go`
recovers a panic, so it reaches the caller of the logging operation.  Below,
`raises x` says that a `Write` on `x` panics, and `none` is a call that
panics. -/

/-- The method `Write` of a multiWriter when a sink may panic: the writers are called in
turn; the call panics when it reaches a writer that raises, and stops after the
first writer that reports an error. -/
def io.multiWriter.WriteRaising (raises : Writer → Bool) :
    List Writer → String → World → Option (World × Bool)
  | [], _, w => some (w, false)
  | x :: rest, p, w =>
    if raises x then none
    else if w.failing x then
      some ({ w with written := fun y => if y = x then w.written y ++ [p] else w.written y },
        true)
    else io.multiWriter.WriteRaising raises rest p
      { w with written := fun y => if y = x then w.written y ++ [p] else w.written y }

/-- The method `log.Logger.Output(calldepth, s)` when a sink may panic. -/
def log.Logger.OutputRaising (l : log.Logger) (raises : Writer → Bool) (_calldepth : Nat)
    (s : String) (env : Env) (w : World) : Option (World × Bool) :=
  io.multiWriter.WriteRaising raises l.out.writers (l.line s env) w

/-- The method `logger.log` when a sink may panic; the error `Output` returns is
dropped, a panic of `Output` is not caught. -/
def logger.logRaising (l : logger) (raises : Writer → Bool) (level : LogLevel)
    (v : List any) (env : Env) (w : World) : Option World :=
  match l.outputs level with
  | some logOutput =>
    match logOutput.OutputRaising raises 3 (fmt.Sprint v) env w with
    | some r => some r.1
    | none => none
  | none => some w

/-- The method `logger.logf` when a sink may panic; the error `Output` returns is
dropped, a panic of `Output` is not caught. -/
def logger.logfRaising (l : logger) (raises : Writer → Bool) (level : LogLevel)
    (format : String) (v : List any) (env : Env) (w : World) : Option World :=
  match l.outputs level with
  | some logOutput =>
    match logOutput.OutputRaising raises 3 (env.Sprintf format v) env w with
    | some r => some r.1
    | none => none
  | none => some w

def logger.CriticalRaising (l : logger) (raises : Writer → Bool) (v : List any)
    (env : Env) (w : World) : Option World :=
  l.logRaising raises LogLevelCritical v env w

def logger.CriticalfRaising (l : logger) (raises : Writer → Bool) (format : String)
    (v : List any) (env : Env) (w : World) : Option World :=
  l.logfRaising raises LogLevelCritical format v env w

def logger.ErrorRaising (l : logger) (raises : Writer → Bool) (v : List any)
    (env : Env) (w : World) : Option World :=
  l.logRaising raises LogLevelError v env w

def logger.ErrorfRaising (l : logger) (raises : Writer → Bool) (format : String)
    (v : List any) (env : Env) (w : World) : Option World :=
  l.logfRaising raises LogLevelError format v env w

def logger.WarningRaising (l : logger) (raises : Writer → Bool) (v : List any)
    (env : Env) (w : World) : Option World :=
  l.logRaising raises LogLevelWarning v env w

def logger.WarningfRaising (l : logger) (raises : Writer → Bool) (format : String)
    (v : List any) (env : Env) (w : World) : Option World :=
  l.logfRaising raises LogLevelWarning format v env w

def logger.NoticeRaising (l : logger) (raises : Writer → Bool) (v : List any)
    (env : Env) (w : World) : Option World :=
  l.logRaising raises LogLevelNotice v env w

def logger.NoticefRaising (l : logger) (raises : Writer → Bool) (format : String)
    (v : List any) (env : Env) (w : World) : Option World :=
  l.logfRaising raises LogLevelNotice format v env w

def logger.InfoRaising (l : logger) (raises : Writer → Bool) (v : List any)
    (env : Env) (w : World) : Option World :=
  l.logRaising raises LogLevelInfo v env w

def logger.InfofRaising (l : logger) (raises : Writer → Bool) (format : String)
    (v : List any) (env : Env) (w : World) : Option World :=
  l.logfRaising raises LogLevelInfo format v env w

def logger.DebugRaising (l : logger) (raises : Writer → Bool) (v : List any)
    (env : Env) (w : World) : Option World :=
  l.logRaising raises LogLevelDebug v env w

def logger.DebugfRaising (l : logger) (raises : Writer → Bool) (format : String)
    (v : List any) (env : Env) (w : World) : Option World :=
  l.logfRaising raises LogLevelDebug format v env w

/-! ## The resolved table, whatever the visiting order -/

/-- The configuration the resolution loop of `NewLogger` leaves for level `L`:
the loop body applied to the record of `L` in the settings after all options. -/
def resolvedConf (minLevel : LogLevel) (calls : List OptionCall) (L : LogLevel) : Config :=
  resolveConf minLevel (finalSettings calls) L
    (mapIndex (finalSettings calls).LogLevelConfigs L)

/-- The pipeline `NewLogger` builds from that configuration. -/
def resolvedLogger (minLevel : LogLevel) (calls : List OptionCall) (L : LogLevel) :
    log.Logger :=
  log.New (io.MultiWriter (resolvedConf minLevel calls L).Outputs)
    (resolvedConf minLevel calls L).Prefix (resolvedConf minLevel calls L).Flags

/-- Two settings values that agree everywhere but on the record of level `L`. -/
def agreeOff (L : LogLevel) (s t : settings) : Prop :=
  s.DefaultErrOutputs = t.DefaultErrOutputs ∧
  s.DefaultNonErrOutputs = t.DefaultNonErrOutputs ∧
  s.DefaultFlags = t.DefaultFlags ∧
  ∀ k, k ≠ L → s.LogLevelConfigs k = t.LogLevelConfigs k

/-! ## Lemmas on the two loops of NewLogger -/

theorem mem_levelKeys (k : LogLevel) :
    k ∈ levelKeys ↔ k = LogLevelCritical ∨ k = LogLevelError ∨ k = LogLevelWarning ∨
      k = LogLevelNotice ∨ k = LogLevelInfo ∨ k = LogLevelDebug := by
  simp [levelKeys]

theorem mem_levelKeys_iff_range (k : LogLevel) : k ∈ levelKeys ↔ 1 ≤ k ∧ k ≤ 6 := by
  rw [mem_levelKeys]
  have h : ∀ j : Int, (j = 6 ∨ j = 5 ∨ j = 4 ∨ j = 3 ∨ j = 2 ∨ j = 1) ↔ 1 ≤ j ∧ j ≤ 6 := by
    intro j
    omega
  exact h k

theorem resolveConf_Flags (m : LogLevel) (s : settings) (L : LogLevel) (c : Config) :
    (resolveConf m s L c).Flags = if c.Flags = 0 then s.DefaultFlags else c.Flags := by
  unfold resolveConf
  by_cases hf : c.Flags = 0 <;> by_cases hp : c.Prefix = "" <;>
    by_cases ho : c.Outputs = [] <;> by_cases hm : m ≤ L <;>
    by_cases hw : LogLevelWarning ≤ L <;>
    simp [hf, hp, ho, hm, hw]

theorem resolveConf_Prefix (m : LogLevel) (s : settings) (L : LogLevel) (c : Config) :
    (resolveConf m s L c).Prefix = if c.Prefix = "" then LogLevel.String L else c.Prefix := by
  unfold resolveConf
  by_cases hf : c.Flags = 0 <;> by_cases hp : c.Prefix = "" <;>
    by_cases ho : c.Outputs = [] <;> by_cases hm : m ≤ L <;>
    by_cases hw : LogLevelWarning ≤ L <;>
    simp [hf, hp, ho, hm, hw]

theorem resolveConf_Outputs (m : LogLevel) (s : settings) (L : LogLevel) (c : Config) :
    (resolveConf m s L c).Outputs =
      if c.Outputs.length = 0 ∧ L ≥ m then
        (if L ≥ LogLevelWarning then s.DefaultErrOutputs else s.DefaultNonErrOutputs)
      else c.Outputs := by
  unfold resolveConf
  by_cases hf : c.Flags = 0 <;> by_cases hp : c.Prefix = "" <;>
    by_cases ho : c.Outputs = [] <;> by_cases hm : m ≤ L <;>
    by_cases hw : LogLevelWarning ≤ L <;>
    simp [hf, hp, ho, hm, hw]

/-- The loop body reads the settings only through the three global defaults. -/
theorem resolveConf_congr (m : LogLevel) (s t : settings)
    (h1 : t.DefaultErrOutputs = s.DefaultErrOutputs)
    (h2 : t.DefaultNonErrOutputs = s.DefaultNonErrOutputs)
    (h3 : t.DefaultFlags = s.DefaultFlags) (L : LogLevel) (c : Config) :
    resolveConf m t L c = resolveConf m s L c := by
  unfold resolveConf
  rw [h1, h2, h3]

/-- The resolution loop leaves the three global defaults alone. -/
theorem resolveLoop_defaults (m : LogLevel) (ks : List LogLevel) (s : settings) :
    (resolveLoop m ks s).DefaultErrOutputs = s.DefaultErrOutputs ∧
    (resolveLoop m ks s).DefaultNonErrOutputs = s.DefaultNonErrOutputs ∧
    (resolveLoop m ks s).DefaultFlags = s.DefaultFlags := by
  induction ks generalizing s with
  | nil => simp [resolveLoop]
  | cons k rest ih =>
    unfold resolveLoop
    cases hk : s.LogLevelConfigs k with
    | none => simpa using ih s
    | some conf => simpa using ih _

/-- Visiting each key once, in any order, rewrites the record of every visited
key by the loop body and leaves the other keys alone. -/
theorem resolveLoop_configs (m : LogLevel) (ks : List LogLevel) (hnd : ks.Nodup)
    (s : settings) (k : LogLevel) :
    (resolveLoop m ks s).LogLevelConfigs k =
      if k ∈ ks then (s.LogLevelConfigs k).map (resolveConf m s k)
      else s.LogLevelConfigs k := by
  induction ks generalizing s with
  | nil => simp [resolveLoop]
  | cons k0 rest ih =>
    have hk0 : k0 ∉ rest := (List.nodup_cons.mp hnd).1
    have hrest : rest.Nodup := (List.nodup_cons.mp hnd).2
    unfold resolveLoop
    cases hc : s.LogLevelConfigs k0 with
    | none =>
      simp only []
      rw [ih hrest s]
      by_cases hkk : k = k0
      · subst hkk
        simp [hk0, hc]
      · simp [hkk]
    | some conf =>
      simp only []
      rw [ih hrest _]
      have hcongr : ∀ c, resolveConf m
          { s with LogLevelConfigs :=
              mapSet s.LogLevelConfigs k0 (resolveConf m s k0 conf) } k c
            = resolveConf m s k c :=
        fun c => resolveConf_congr m s _ rfl rfl rfl k c
      by_cases hkk : k = k0
      · subst hkk
        simp [hk0, hc, mapSet]
      · have hfun := funext hcongr
        simp [hkk, mapSet, hfun]

theorem applyOpts_append (xs ys : List LoggerOption) (s : settings) :
    applyOpts (xs ++ ys) s = applyOpts ys (applyOpts xs s) := by
  simp [applyOpts, List.foldl_append]

theorem applyOpts_cons (x : LoggerOption) (xs : List LoggerOption) (s : settings) :
    applyOpts (x :: xs) s = applyOpts xs (x s) := rfl

theorem applyOpts_nil (s : settings) : applyOpts [] s = s := rfl

/-- One option keeps the key set of the configuration map: the six levels. -/
theorem toOption_keys (c : OptionCall) (s : settings) (k : LogLevel)
    (hs : (s.LogLevelConfigs k).isSome ↔ k ∈ levelKeys) :
    ((c.toOption s).LogLevelConfigs k).isSome ↔ k ∈ levelKeys := by
  rw [mem_levelKeys] at hs ⊢
  cases c <;>
    simp only [OptionCall.toOption, SetCriticalLoggerOpt, SetErrorLoggerOpt,
      SetWarningLoggerOpt, SetNoticeLoggerOpt, SetInfoLoggerOpt, SetDebugLoggerOpt,
      SetDefaultErrorOutputsOpt, SetDefaultNonErrorOutputOpt, SetDefaultFlagsOpt, mapSet] <;>
    first
      | exact hs
      | (split
         · simp_all
         · exact hs)

theorem applyOpts_keys (calls : List OptionCall) (s : settings) (k : LogLevel)
    (hs : (s.LogLevelConfigs k).isSome ↔ k ∈ levelKeys) :
    ((applyOpts (calls.map OptionCall.toOption) s).LogLevelConfigs k).isSome
      ↔ k ∈ levelKeys := by
  induction calls generalizing s with
  | nil => simpa [applyOpts] using hs
  | cons c rest ih =>
    rw [List.map_cons, applyOpts_cons]
    exact ih _ (toOption_keys c s k hs)

theorem initialSettings_keys (k : LogLevel) :
    (initialSettings.LogLevelConfigs k).isSome ↔ k ∈ levelKeys := by
  rw [mem_levelKeys]
  unfold initialSettings
  simp only []
  split <;> simp_all

theorem finalSettings_keys (calls : List OptionCall) (k : LogLevel) :
    ((finalSettings calls).LogLevelConfigs k).isSome ↔ k ∈ levelKeys :=
  applyOpts_keys calls initialSettings k (initialSettings_keys k)

theorem finalSettings_some (calls : List OptionCall) (k : LogLevel) (hk : k ∈ levelKeys) :
    (finalSettings calls).LogLevelConfigs k
      = some (mapIndex (finalSettings calls).LogLevelConfigs k) := by
  have h := (finalSettings_keys calls k).mpr hk
  unfold mapIndex
  cases hc : (finalSettings calls).LogLevelConfigs k with
  | none => simp [hc] at h
  | some c => simp

/-- The record the resolution loop leaves for a level, for every visiting order
that ranges over the six keys once each. -/
theorem resolvedSettings_index (visit : List LogLevel) (hv : visit.Perm levelKeys)
    (m : LogLevel) (calls : List OptionCall) (L : LogLevel) (hL : L ∈ levelKeys) :
    mapIndex (resolvedSettings visit m (calls.map OptionCall.toOption)).LogLevelConfigs L
      = resolveConf m (finalSettings calls) L
          (mapIndex (finalSettings calls).LogLevelConfigs L) := by
  have hnd : visit.Nodup := hv.nodup_iff.mpr (by decide)
  have hmem : L ∈ visit := hv.mem_iff.mpr hL
  unfold resolvedSettings
  have h := resolveLoop_configs m visit hnd
    (applyOpts (calls.map OptionCall.toOption) initialSettings) L
  have hs := finalSettings_some calls L hL
  unfold finalSettings at hs ⊢
  rw [if_pos hmem, hs] at h
  conv_lhs => unfold mapIndex
  rw [h]
  simp

/-- The entry `NewLogger` builds for each of the six levels. -/
theorem NewLogger_outputs (visit : List LogLevel) (hv : visit.Perm levelKeys)
    (m : LogLevel) (calls : List OptionCall) (L : LogLevel) (hL : L ∈ levelKeys) :
    (NewLogger visit m (calls.map OptionCall.toOption)).outputs L =
      some (log.New
        (io.MultiWriter (resolveConf m (finalSettings calls) L
          (mapIndex (finalSettings calls).LogLevelConfigs L)).Outputs)
        (resolveConf m (finalSettings calls) L
          (mapIndex (finalSettings calls).LogLevelConfigs L)).Prefix
        (resolveConf m (finalSettings calls) L
          (mapIndex (finalSettings calls).LogLevelConfigs L)).Flags) := by
  have h := resolvedSettings_index visit hv m calls L hL
  rw [mem_levelKeys] at hL
  unfold NewLogger
  simp only [newLevelLogger]
  rcases hL with h1 | h1 | h1 | h1 | h1 | h1 <;> subst h1 <;> rw [h] <;>
    simp [LogLevelCritical, LogLevelError, LogLevelWarning, LogLevelNotice, LogLevelInfo,
      LogLevelDebug]

/-! ## Lemmas on the options -/

theorem mapSet_mapSet_same (m : LogLevel → Option Config) (k : LogLevel) (a b : Config) :
    mapSet (mapSet m k a) k b = mapSet m k b := by
  funext j
  by_cases h : j = k <;> simp [mapSet, h]

theorem mapSet_comm (m : LogLevel → Option Config) (j k : LogLevel) (hjk : j ≠ k)
    (a b : Config) :
    mapSet (mapSet m j a) k b = mapSet (mapSet m k b) j a := by
  funext i
  by_cases h1 : i = j
  · have h2 : i ≠ k := fun h => hjk (h1.symm.trans h)
    simp [mapSet, h1, h2, hjk]
  · by_cases h2 : i = k
    · have h3 : k ≠ j := fun h => hjk h.symm
      simp [mapSet, h2, h3]
    · simp [mapSet, h1, h2]

/-- A later option with the same target overwrites an earlier one. -/
theorem toOption_overwrite (c d : OptionCall) (h : d.target = c.target) (s : settings) :
    d.toOption (c.toOption s) = d.toOption s := by
  cases c <;> cases d <;>
    first
      | (exfalso
         simp [OptionCall.target, LogLevelCritical, LogLevelError, LogLevelWarning,
           LogLevelNotice, LogLevelInfo, LogLevelDebug] at h
         done)
      | simp [OptionCall.toOption, SetCriticalLoggerOpt, SetErrorLoggerOpt,
          SetWarningLoggerOpt, SetNoticeLoggerOpt, SetInfoLoggerOpt, SetDebugLoggerOpt,
          SetDefaultErrorOutputsOpt, SetDefaultNonErrorOutputOpt, SetDefaultFlagsOpt,
          mapSet_mapSet_same]

/-- Options with different targets commute. -/
theorem toOption_comm (c d : OptionCall) (h : d.target ≠ c.target) (s : settings) :
    d.toOption (c.toOption s) = c.toOption (d.toOption s) := by
  cases c <;> cases d <;>
    first
      | (exfalso
         simp [OptionCall.target, LogLevelCritical, LogLevelError, LogLevelWarning,
           LogLevelNotice, LogLevelInfo, LogLevelDebug] at h
         done)
      | rfl
      | (simp only [OptionCall.toOption, SetCriticalLoggerOpt, SetErrorLoggerOpt,
          SetWarningLoggerOpt, SetNoticeLoggerOpt, SetInfoLoggerOpt, SetDebugLoggerOpt]
         rw [mapSet_comm _ _ _ (by decide)])

/-- An option is overwritten when a later option of the list has its target. -/
theorem applyOpts_overwritten (c : OptionCall) (rest : List OptionCall)
    (h : ∃ d ∈ rest, d.target = c.target) (s : settings) :
    applyOpts (rest.map OptionCall.toOption) (c.toOption s)
      = applyOpts (rest.map OptionCall.toOption) s := by
  induction rest generalizing s with
  | nil => simp at h
  | cons e rest ih =>
    rw [List.map_cons, applyOpts_cons, applyOpts_cons]
    by_cases he : e.target = c.target
    · rw [toOption_overwrite c e he]
    · rw [toOption_comm c e he]
      apply ih
      obtain ⟨d, hd, hdt⟩ := h
      rcases List.mem_cons.mp hd with hde | hdr
      · subst hde
        exact absurd hdt he
      · exact ⟨d, hdr, hdt⟩

theorem applyOpts_keepLast (calls : List OptionCall) (s : settings) :
    applyOpts ((keepLast calls).map OptionCall.toOption) s
      = applyOpts (calls.map OptionCall.toOption) s := by
  induction calls generalizing s with
  | nil => rfl
  | cons c rest ih =>
    unfold keepLast
    by_cases h : rest.any (fun d => decide (d.target = c.target)) = true
    · rw [if_pos h, ih, List.map_cons, applyOpts_cons]
      have h2 : ∃ d ∈ rest, d.target = c.target := by
        simpa using h
      rw [applyOpts_overwritten c rest h2]
    · rw [if_neg h, List.map_cons, List.map_cons, applyOpts_cons, applyOpts_cons, ih]

/-- An option list in which no option targets level `k` leaves the record of
`k` as it was. -/
theorem applyOpts_untouched (calls : List OptionCall) (k : LogLevel)
    (h : ∀ c ∈ calls, c.target ≠ Target.level k) (s : settings) :
    (applyOpts (calls.map OptionCall.toOption) s).LogLevelConfigs k = s.LogLevelConfigs k := by
  induction calls generalizing s with
  | nil => rfl
  | cons c rest ih =>
    rw [List.map_cons, applyOpts_cons, ih (fun d hd => h d (List.mem_cons_of_mem _ hd))]
    have hc := h c (List.mem_cons_self _ _)
    cases c <;>
      simp only [OptionCall.toOption, SetCriticalLoggerOpt, SetErrorLoggerOpt,
        SetWarningLoggerOpt, SetNoticeLoggerOpt, SetInfoLoggerOpt, SetDebugLoggerOpt,
        SetDefaultErrorOutputsOpt, SetDefaultNonErrorOutputOpt, SetDefaultFlagsOpt, mapSet] <;>
      first
        | rfl
        | (rw [if_neg]
           intro hk
           apply hc
           simp [OptionCall.target, hk])

/-- The setter of level `L` is one of the six levels' setters, targets `L`, and
assigns its configuration to the key `L` of the map. -/
theorem levelCall_spec (L : LogLevel) (config : Config) (c : OptionCall)
    (h : levelCall L config = some c) :
    L ∈ levelKeys ∧ c.target = Target.level L ∧
      ∀ s : settings, c.toOption s =
        { s with LogLevelConfigs := mapSet s.LogLevelConfigs L config } := by
  unfold levelCall at h
  split_ifs at h with h1 h2 h3 h4 h5 h6 <;> simp only [Option.some.injEq] at h <;>
    subst h <;> subst_vars <;> exact ⟨by decide, rfl, fun s => rfl⟩

theorem finalSettings_nil : finalSettings [] = initialSettings := rfl

/-! ## Destinations -/

/-- C1, as stated, fails at Warning: with minimum level Debug and no option,
Warning is below Error and has an empty destination set of its own, yet its
destinations resolve to the error default (standard error), not to the
non-error default (standard output). -/
theorem C1_warning_uses_error_default :
    LogLevelWarning ∈ levelKeys ∧ LogLevelWarning ≥ LogLevelDebug ∧
    (mapIndex (finalSettings []).LogLevelConfigs LogLevelWarning).Outputs = [] ∧
    ¬ (LogLevelWarning ≥ LogLevelError) ∧
    (NewLogger levelKeys LogLevelDebug ([].map OptionCall.toOption)).outputs LogLevelWarning
      = some (log.New (io.MultiWriter (finalSettings []).DefaultErrOutputs) "[WARNING]" 11) ∧
    (finalSettings []).DefaultErrOutputs ≠ (finalSettings []).DefaultNonErrOutputs := by
  decide

/-- C1, amended: for every visiting order of the six keys, every minimum level,
every list of options and every level `L` of the six with `L ≥ minLevel` whose
final configuration has no destination, the destinations resolved for `L` are
the error default in force after the options when `L ≥ Warning` (Warning,
Error, Critical) and the non-error default otherwise (Debug, Info, Notice). -/
theorem C1_default_destinations (visit : List LogLevel) (hv : visit.Perm levelKeys)
    (minLevel : LogLevel) (calls : List OptionCall) (L : LogLevel) (hL : L ∈ levelKeys)
    (hmin : L ≥ minLevel)
    (hempty : (mapIndex (finalSettings calls).LogLevelConfigs L).Outputs = []) :
    ∃ pfx flag,
      (NewLogger visit minLevel (calls.map OptionCall.toOption)).outputs L =
        some (log.New
          (io.MultiWriter
            (if L = LogLevelWarning ∨ L = LogLevelError ∨ L = LogLevelCritical
             then (finalSettings calls).DefaultErrOutputs
             else (finalSettings calls).DefaultNonErrOutputs))
          pfx flag) := by
  refine ⟨(resolveConf minLevel (finalSettings calls) L
      (mapIndex (finalSettings calls).LogLevelConfigs L)).Prefix,
    (resolveConf minLevel (finalSettings calls) L
      (mapIndex (finalSettings calls).LogLevelConfigs L)).Flags, ?_⟩
  rw [NewLogger_outputs visit hv minLevel calls L hL, resolveConf_Outputs]
  have hge : minLevel ≤ L := hmin
  have hsplit : (L = LogLevelWarning ∨ L = LogLevelError ∨ L = LogLevelCritical)
      ↔ L ≥ LogLevelWarning := by
    have h6 := (mem_levelKeys_iff_range L).mp hL
    have : ∀ j : Int, 1 ≤ j ∧ j ≤ 6 → ((j = 4 ∨ j = 5 ∨ j = 6) ↔ j ≥ 4) := by
      intro j hj
      omega
    exact this L h6
  simp only [hempty, List.length_nil, hge, ge_iff_le, and_self, if_true, hsplit]

theorem C1_default_destinations_witness :
    ∃ pfx flag,
      (NewLogger levelKeys LogLevelWarning
        ([OptionCall.defaultErrorOutputs [Writer.sink 1],
          OptionCall.error ⟨[], "[E]", 0⟩].map OptionCall.toOption)).outputs LogLevelError =
        some (log.New (io.MultiWriter [Writer.sink 1]) pfx flag) :=
  C1_default_destinations levelKeys (List.Perm.refl _) LogLevelWarning
    [OptionCall.defaultErrorOutputs [Writer.sink 1], OptionCall.error ⟨[], "[E]", 0⟩]
    LogLevelError (by decide) (by decide) (by decide)

/-- C2: with no option, for every visiting order of the six keys and every
minimum level, a level `L ≥ minLevel` resolves to standard error, its label and
the flags `Ldate|Ltime|Llongfile = 11` when it is Warning, Error or Critical,
and to standard output, its label and 11 when it is Debug, Info or Notice; a
level `L < minLevel` resolves to no destination, its label and 11. -/
theorem C2_no_options (visit : List LogLevel) (hv : visit.Perm levelKeys)
    (minLevel : LogLevel) (L : LogLevel) (hL : L ∈ levelKeys) :
    Int.lor (Int.lor log.Ldate log.Ltime) log.Llongfile = 11 ∧
    (L ≥ minLevel → (L = LogLevelWarning ∨ L = LogLevelError ∨ L = LogLevelCritical) →
      (NewLogger visit minLevel []).outputs L =
        some (log.New (io.MultiWriter [os.Stderr]) (LogLevel.String L) 11)) ∧
    (L ≥ minLevel → (L = LogLevelDebug ∨ L = LogLevelInfo ∨ L = LogLevelNotice) →
      (NewLogger visit minLevel []).outputs L =
        some (log.New (io.MultiWriter [os.Stdout]) (LogLevel.String L) 11)) ∧
    (L < minLevel →
      (NewLogger visit minLevel []).outputs L =
        some (log.New (io.MultiWriter []) (LogLevel.String L) 11)) := by
  have h := NewLogger_outputs visit hv minLevel [] L hL
  rw [List.map_nil] at h
  have hc : mapIndex (finalSettings []).LogLevelConfigs L = Config.zero := by
    rw [mem_levelKeys] at hL
    rcases hL with h1 | h1 | h1 | h1 | h1 | h1 <;> subst h1 <;> decide
  rw [hc, resolveConf_Outputs, resolveConf_Prefix, resolveConf_Flags] at h
  have hflags : (finalSettings []).DefaultFlags = 11 := by decide
  have herr : (finalSettings []).DefaultErrOutputs = [os.Stderr] := rfl
  have hnon : (finalSettings []).DefaultNonErrOutputs = [os.Stdout] := rfl
  simp only [Config.zero, List.length_nil, true_and, if_true, hflags, herr, hnon] at h
  refine ⟨by decide, ?_, ?_, ?_⟩
  · intro hmin hcase
    have hw : L ≥ LogLevelWarning := by
      rcases hcase with h1 | h1 | h1 <;> subst h1 <;> decide
    rw [h, if_pos hmin, if_pos hw]
  · intro hmin hcase
    have hw : ¬ L ≥ LogLevelWarning := by
      rcases hcase with h1 | h1 | h1 <;> subst h1 <;> decide
    rw [h, if_pos hmin, if_neg hw]
  · intro hlt
    have hmin : ¬ L ≥ minLevel := not_le.mpr hlt
    rw [h, if_neg hmin]

theorem C2_no_options_witness :
    Int.lor (Int.lor log.Ldate log.Ltime) log.Llongfile = 11 ∧
    (LogLevelWarning ≥ LogLevelNotice →
      (LogLevelWarning = LogLevelWarning ∨ LogLevelWarning = LogLevelError ∨
        LogLevelWarning = LogLevelCritical) →
      (NewLogger levelKeys LogLevelNotice []).outputs LogLevelWarning =
        some (log.New (io.MultiWriter [os.Stderr]) (LogLevel.String LogLevelWarning) 11)) ∧
    (LogLevelWarning ≥ LogLevelNotice →
      (LogLevelWarning = LogLevelDebug ∨ LogLevelWarning = LogLevelInfo ∨
        LogLevelWarning = LogLevelNotice) →
      (NewLogger levelKeys LogLevelNotice []).outputs LogLevelWarning =
        some (log.New (io.MultiWriter [os.Stdout]) (LogLevel.String LogLevelWarning) 11)) ∧
    (LogLevelWarning < LogLevelNotice →
      (NewLogger levelKeys LogLevelNotice []).outputs LogLevelWarning =
        some (log.New (io.MultiWriter []) (LogLevel.String LogLevelWarning) 11)) :=
  C2_no_options levelKeys (List.Perm.refl _) LogLevelNotice LogLevelWarning (by decide)

/-- C3: for every visiting order of the six keys, every minimum level, every
list of options none of which targets level `L`, and every level `L` of the six
with `L < minLevel`, the destinations resolved for `L` are empty, whatever the
options made of the global defaults. -/
theorem C3_suppressed_below_min (visit : List LogLevel) (hv : visit.Perm levelKeys)
    (minLevel : LogLevel) (calls : List OptionCall) (L : LogLevel) (hL : L ∈ levelKeys)
    (hlt : L < minLevel) (hno : ∀ c ∈ calls, c.target ≠ Target.level L) :
    ∃ pfx flag,
      (NewLogger visit minLevel (calls.map OptionCall.toOption)).outputs L =
        some (log.New (io.MultiWriter []) pfx flag) := by
  refine ⟨(resolveConf minLevel (finalSettings calls) L
      (mapIndex (finalSettings calls).LogLevelConfigs L)).Prefix,
    (resolveConf minLevel (finalSettings calls) L
      (mapIndex (finalSettings calls).LogLevelConfigs L)).Flags, ?_⟩
  rw [NewLogger_outputs visit hv minLevel calls L hL, resolveConf_Outputs]
  have hc : mapIndex (finalSettings calls).LogLevelConfigs L = Config.zero := by
    unfold mapIndex finalSettings
    rw [applyOpts_untouched calls L hno]
    rw [mem_levelKeys] at hL
    rcases hL with h1 | h1 | h1 | h1 | h1 | h1 <;> subst h1 <;> decide
  have hmin : ¬ L ≥ minLevel := not_le.mpr hlt
  simp only [hc, hmin, and_false, if_false, Config.zero]

theorem C3_suppressed_below_min_witness :
    ∃ pfx flag,
      (NewLogger levelKeys LogLevelError
        ([OptionCall.defaultNonErrorOutput [Writer.sink 7],
          OptionCall.info ⟨[Writer.sink 8], "", 0⟩].map OptionCall.toOption)).outputs
            LogLevelNotice =
        some (log.New (io.MultiWriter []) pfx flag) :=
  C3_suppressed_below_min levelKeys (List.Perm.refl _) LogLevelError
    [OptionCall.defaultNonErrorOutput [Writer.sink 7],
      OptionCall.info ⟨[Writer.sink 8], "", 0⟩]
    LogLevelNotice (by decide) (by decide) (by decide)

/-- The record of level `L` after an option list whose last option targeting
`L` carries `config`. -/
theorem finalSettings_last (pre post : List OptionCall) (L : LogLevel) (config : Config)
    (c : OptionCall) (hc : levelCall L config = some c)
    (hlast : ∀ d ∈ post, d.target ≠ Target.level L) :
    mapIndex (finalSettings (pre ++ c :: post)).LogLevelConfigs L = config := by
  obtain ⟨_, _, hrun⟩ := levelCall_spec L config c hc
  unfold mapIndex finalSettings
  rw [List.map_append, applyOpts_append, List.map_cons, applyOpts_cons,
    applyOpts_untouched post L hlast, hrun]
  simp [mapSet]

/-- C4: for every visiting order of the six keys, every minimum level (also one
above the level) and every level `L`, when the last per-level option that
targets `L` carries a non-empty destination list, the destinations resolved for
`L` are that list, in its order, whatever `minLevel` and the global defaults
are. -/
theorem C4_override_destinations_win (visit : List LogLevel) (hv : visit.Perm levelKeys)
    (minLevel : LogLevel) (pre post : List OptionCall) (L : LogLevel) (config : Config)
    (c : OptionCall) (hc : levelCall L config = some c) (hne : config.Outputs ≠ [])
    (hlast : ∀ d ∈ post, d.target ≠ Target.level L) :
    ∃ pfx flag,
      (NewLogger visit minLevel ((pre ++ c :: post).map OptionCall.toOption)).outputs L =
        some (log.New (io.MultiWriter config.Outputs) pfx flag) := by
  have hL : L ∈ levelKeys := (levelCall_spec L config c hc).1
  refine ⟨(resolveConf minLevel (finalSettings (pre ++ c :: post)) L
      (mapIndex (finalSettings (pre ++ c :: post)).LogLevelConfigs L)).Prefix,
    (resolveConf minLevel (finalSettings (pre ++ c :: post)) L
      (mapIndex (finalSettings (pre ++ c :: post)).LogLevelConfigs L)).Flags, ?_⟩
  rw [NewLogger_outputs visit hv minLevel (pre ++ c :: post) L hL, resolveConf_Outputs,
    finalSettings_last pre post L config c hc hlast]
  have hlen : ¬ config.Outputs.length = 0 := fun h => hne (List.length_eq_zero.mp h)
  simp only [hlen, false_and, if_false]

theorem C4_override_destinations_win_witness :
    ∃ pfx flag,
      (NewLogger levelKeys LogLevelCritical
        (([OptionCall.error ⟨[], "[X]", 0⟩] ++
          OptionCall.error ⟨[Writer.sink 2, Writer.sink 1], "", 0⟩ ::
            [OptionCall.defaultErrorOutputs [Writer.sink 9]]).map
              OptionCall.toOption)).outputs LogLevelError =
        some (log.New (io.MultiWriter
          (Config.mk [Writer.sink 2, Writer.sink 1] "" 0).Outputs) pfx flag) :=
  C4_override_destinations_win levelKeys (List.Perm.refl _) LogLevelCritical
    [OptionCall.error ⟨[], "[X]", 0⟩] [OptionCall.defaultErrorOutputs [Writer.sink 9]]
    LogLevelError ⟨[Writer.sink 2, Writer.sink 1], "", 0⟩
    (OptionCall.error ⟨[Writer.sink 2, Writer.sink 1], "", 0⟩)
    (by decide) (by decide) (by decide)

/-! ## Prefix and flags -/

/-- C5: for every visiting order of the six keys, every minimum level, every
option list and every level `L` of the six, with `conf` the configuration of
`L` and `s` the settings after all options: the resolved flags are `conf.Flags`
when non-zero and `s.DefaultFlags` otherwise, the resolved prefix is
`conf.Prefix` when non-empty and the label of `L` otherwise, each whatever the
other two fields are.  A configuration that sets only `Prefix` gets the default
flags and the destinations of a level without override; one that sets only
`Flags` gets the label as prefix. -/
theorem C5_flags_prefix_independent (visit : List LogLevel) (hv : visit.Perm levelKeys)
    (minLevel : LogLevel) (calls : List OptionCall) (L : LogLevel) (hL : L ∈ levelKeys) :
    (∃ out,
      (NewLogger visit minLevel (calls.map OptionCall.toOption)).outputs L =
        some (log.New out
          (if (mapIndex (finalSettings calls).LogLevelConfigs L).Prefix = ""
            then LogLevel.String L
            else (mapIndex (finalSettings calls).LogLevelConfigs L).Prefix)
          (if (mapIndex (finalSettings calls).LogLevelConfigs L).Flags = 0
            then (finalSettings calls).DefaultFlags
            else (mapIndex (finalSettings calls).LogLevelConfigs L).Flags))) ∧
    (∀ p : String, p ≠ "" →
      mapIndex (finalSettings calls).LogLevelConfigs L = ⟨[], p, 0⟩ →
      (NewLogger visit minLevel (calls.map OptionCall.toOption)).outputs L =
        some (log.New
          (io.MultiWriter
            (if L ≥ minLevel then
              (if L ≥ LogLevelWarning then (finalSettings calls).DefaultErrOutputs
               else (finalSettings calls).DefaultNonErrOutputs)
             else []))
          p (finalSettings calls).DefaultFlags)) ∧
    (∀ f : Int, f ≠ 0 →
      mapIndex (finalSettings calls).LogLevelConfigs L = ⟨[], "", f⟩ →
      (NewLogger visit minLevel (calls.map OptionCall.toOption)).outputs L =
        some (log.New
          (io.MultiWriter
            (if L ≥ minLevel then
              (if L ≥ LogLevelWarning then (finalSettings calls).DefaultErrOutputs
               else (finalSettings calls).DefaultNonErrOutputs)
             else []))
          (LogLevel.String L) f)) := by
  have h := NewLogger_outputs visit hv minLevel calls L hL
  rw [resolveConf_Outputs, resolveConf_Prefix, resolveConf_Flags] at h
  refine ⟨⟨_, h⟩, ?_, ?_⟩
  · intro p hp hconf
    rw [h, hconf]
    by_cases hmin : L ≥ minLevel <;> simp [hp, hmin]
  · intro f hf hconf
    rw [h, hconf]
    by_cases hmin : L ≥ minLevel <;> simp [hf, hmin]

theorem C5_flags_prefix_independent_witness :
    (NewLogger levelKeys LogLevelDebug
      ([OptionCall.critical ⟨[Writer.sink 0], "", 0⟩,
        OptionCall.error ⟨[], "[TEST_ERROR]", 0⟩,
        OptionCall.warning ⟨[], "", log.LstdFlags⟩].map OptionCall.toOption)).outputs
          LogLevelError
      = some (log.New (io.MultiWriter [os.Stderr]) "[TEST_ERROR]" 11) :=
  (C5_flags_prefix_independent levelKeys (List.Perm.refl _) LogLevelDebug
    [OptionCall.critical ⟨[Writer.sink 0], "", 0⟩,
      OptionCall.error ⟨[], "[TEST_ERROR]", 0⟩,
      OptionCall.warning ⟨[], "", log.LstdFlags⟩]
    LogLevelError (by decide)).2.1 "[TEST_ERROR]" (by decide) (by decide)

/-! ## Several options with one target -/

theorem keepLast_subset (calls : List OptionCall) (d : OptionCall)
    (hd : d ∈ keepLast calls) : d ∈ calls := by
  induction calls with
  | nil => simp [keepLast] at hd
  | cons c rest ih =>
    unfold keepLast at hd
    split_ifs at hd with h
    · exact List.mem_cons_of_mem _ (ih hd)
    · rcases List.mem_cons.mp hd with h1 | h1
      · subst h1
        exact List.mem_cons_self _ _
      · exact List.mem_cons_of_mem _ (ih h1)

/-- Every option that `keepLast` keeps is the last one of its target. -/
theorem keepLast_is_last (calls : List OptionCall) (d : OptionCall)
    (hd : d ∈ keepLast calls) :
    ∃ pre post, calls = pre ++ d :: post ∧ ∀ e ∈ post, e.target ≠ d.target := by
  induction calls with
  | nil => simp [keepLast] at hd
  | cons c rest ih =>
    unfold keepLast at hd
    split_ifs at hd with h
    · obtain ⟨pre, post, hsplit, hpost⟩ := ih hd
      exact ⟨c :: pre, post, by rw [hsplit]; rfl, hpost⟩
    · rcases List.mem_cons.mp hd with h1 | h1
      · subst h1
        refine ⟨[], rest, rfl, ?_⟩
        intro e he het
        apply h
        simp only [List.any_eq_true, decide_eq_true_eq]
        exact ⟨e, he, het⟩
      · obtain ⟨pre, post, hsplit, hpost⟩ := ih h1
        exact ⟨c :: pre, post, by rw [hsplit]; rfl, hpost⟩

/-- Every target written by the list is still written after `keepLast`. -/
theorem keepLast_covers (calls : List OptionCall) (c : OptionCall) (hc : c ∈ calls) :
    ∃ d ∈ keepLast calls, d.target = c.target := by
  induction calls generalizing c with
  | nil => simp at hc
  | cons a rest ih =>
    unfold keepLast
    split_ifs with h
    · rcases List.mem_cons.mp hc with h1 | h1
      · subst h1
        simp only [List.any_eq_true, decide_eq_true_eq] at h
        obtain ⟨e, he, het⟩ := h
        obtain ⟨d, hd, hdt⟩ := ih e he
        exact ⟨d, hd, hdt.trans het⟩
      · exact ih c h1
    · rcases List.mem_cons.mp hc with h1 | h1
      · subst h1
        exact ⟨c, List.mem_cons_self _ _, rfl⟩
      · obtain ⟨d, hd, hdt⟩ := ih c h1
        exact ⟨d, List.mem_cons_of_mem _ hd, hdt⟩

/-- After `keepLast` no two options have the same target. -/
theorem keepLast_nodup (calls : List OptionCall) :
    ((keepLast calls).map OptionCall.target).Nodup := by
  induction calls with
  | nil => simp [keepLast]
  | cons a rest ih =>
    unfold keepLast
    split_ifs with h
    · exact ih
    · rw [List.map_cons, List.nodup_cons]
      refine ⟨?_, ih⟩
      intro hmem
      obtain ⟨d, hd, hdt⟩ := List.mem_map.mp hmem
      apply h
      simp only [List.any_eq_true, decide_eq_true_eq]
      exact ⟨d, keepLast_subset rest d hd, hdt⟩

/-- C6: for every visiting order, every minimum level and every option list,
the logger built from the list equals the one built from the list in which,
for each target (a level, or one of the three global defaults), only the last
option writing to it is kept; the kept options are the last ones of their
targets, one for each target of the list.  `NewLogger` is a total function: no
option list makes it fail. -/
theorem C6_last_option_wins (visit : List LogLevel) (minLevel : LogLevel)
    (calls : List OptionCall) :
    NewLogger visit minLevel (calls.map OptionCall.toOption)
      = NewLogger visit minLevel ((keepLast calls).map OptionCall.toOption) ∧
    (∀ d ∈ keepLast calls,
      ∃ pre post, calls = pre ++ d :: post ∧ ∀ e ∈ post, e.target ≠ d.target) ∧
    (∀ c ∈ calls, ∃ d ∈ keepLast calls, d.target = c.target) ∧
    ((keepLast calls).map OptionCall.target).Nodup := by
  refine ⟨?_, keepLast_is_last calls, keepLast_covers calls, keepLast_nodup calls⟩
  unfold NewLogger resolvedSettings
  rw [applyOpts_keepLast]

/-- C7: a per-level option replaces the whole record of its level.  For every
level `L` with its setter, all configurations `c1`, `c2` and every settings
value: after `Set<L>LoggerOpt(c1)` then `Set<L>LoggerOpt(c2)` the record of `L`
is `c2` and the settings are those after `Set<L>LoggerOpt(c2)` alone, so the
logger built from both options is the one built from the second, and `L`
resolves from `c2` and the defaults only (a prefix or flags that `c2` leaves
empty resolve to the label and to the default flags, not to the value `c1`
carried).  Applying any option twice in a row is the same as applying it
once. -/
theorem C7_setter_replaces_record (visit : List LogLevel) (hv : visit.Perm levelKeys)
    (minLevel : LogLevel) (L : LogLevel) (c1 c2 : Config) (o1 o2 : OptionCall)
    (h1 : levelCall L c1 = some o1) (h2 : levelCall L c2 = some o2) (s : settings) :
    (o2.toOption (o1.toOption s)).LogLevelConfigs L = some c2 ∧
    o2.toOption (o1.toOption s) = o2.toOption s ∧
    NewLogger visit minLevel ([o1, o2].map OptionCall.toOption)
      = NewLogger visit minLevel ([o2].map OptionCall.toOption) ∧
    (NewLogger visit minLevel ([o1, o2].map OptionCall.toOption)).outputs L =
      some (log.New
        (io.MultiWriter (resolveConf minLevel initialSettings L c2).Outputs)
        (if c2.Prefix = "" then LogLevel.String L else c2.Prefix)
        (if c2.Flags = 0 then 11 else c2.Flags)) ∧
    (∀ (o : OptionCall) (t : settings), o.toOption (o.toOption t) = o.toOption t) := by
  obtain ⟨hL, ht1, _⟩ := levelCall_spec L c1 o1 h1
  obtain ⟨_, ht2, hrun2⟩ := levelCall_spec L c2 o2 h2
  have hsame : o2.target = o1.target := ht2.trans ht1.symm
  have hsettings : finalSettings [o1, o2] = finalSettings [o2] := by
    show o2.toOption (o1.toOption initialSettings) = o2.toOption initialSettings
    exact toOption_overwrite o1 o2 hsame initialSettings
  refine ⟨?_, toOption_overwrite o1 o2 hsame s, ?_, ?_,
    fun o t => toOption_overwrite o o rfl t⟩
  · rw [toOption_overwrite o1 o2 hsame s, hrun2]
    simp [mapSet]
  · unfold NewLogger resolvedSettings
    have h := hsettings
    unfold finalSettings at h
    rw [h]
  · have hconf : mapIndex (finalSettings [o1, o2]).LogLevelConfigs L = c2 :=
      finalSettings_last [o1] [] L c2 o2 h2 (by simp)
    have hdef : (finalSettings [o1, o2]).DefaultFlags = 11 := by
      rw [hsettings]
      show (o2.toOption initialSettings).DefaultFlags = 11
      rw [hrun2]
      rfl
    rw [NewLogger_outputs visit hv minLevel [o1, o2] L hL, hconf, resolveConf_Prefix,
      resolveConf_Flags, hdef, resolveConf_Outputs, resolveConf_Outputs, hsettings]
    show _ = some (log.New (io.MultiWriter
      (if c2.Outputs.length = 0 ∧ L ≥ minLevel then
        (if L ≥ LogLevelWarning then initialSettings.DefaultErrOutputs
         else initialSettings.DefaultNonErrOutputs)
       else c2.Outputs)) _ _)
    have he : (finalSettings [o2]).DefaultErrOutputs = initialSettings.DefaultErrOutputs := by
      show (o2.toOption initialSettings).DefaultErrOutputs = _
      rw [hrun2]
    have hn : (finalSettings [o2]).DefaultNonErrOutputs
        = initialSettings.DefaultNonErrOutputs := by
      show (o2.toOption initialSettings).DefaultNonErrOutputs = _
      rw [hrun2]
    rw [he, hn]

theorem C7_setter_replaces_record_witness :
    (NewLogger levelKeys LogLevelDebug
      ([OptionCall.notice ⟨[], "[CUSTOM]", 0⟩,
        OptionCall.notice ⟨[], "", log.LstdFlags⟩].map OptionCall.toOption)).outputs
          LogLevelNotice
      = some (log.New (io.MultiWriter [os.Stdout]) "[NOTICE]" 3) :=
  (C7_setter_replaces_record levelKeys (List.Perm.refl _) LogLevelDebug LogLevelNotice
    ⟨[], "[CUSTOM]", 0⟩ ⟨[], "", log.LstdFlags⟩
    (OptionCall.notice ⟨[], "[CUSTOM]", 0⟩) (OptionCall.notice ⟨[], "", log.LstdFlags⟩)
    (by decide) (by decide) initialSettings).2.2.2.1

/-! ## Global defaults -/

/-- An option moves past a list of options none of which has its target. -/
theorem applyOpts_move (g : OptionCall) (ps : List OptionCall)
    (h : ∀ p ∈ ps, p.target ≠ g.target) (s : settings) :
    applyOpts (ps.map OptionCall.toOption) (g.toOption s)
      = g.toOption (applyOpts (ps.map OptionCall.toOption) s) := by
  induction ps generalizing s with
  | nil => rfl
  | cons p rest ih =>
    rw [List.map_cons, applyOpts_cons, applyOpts_cons,
      toOption_comm g p (h p (List.mem_cons_self _ _)) s,
      ih (fun q hq => h q (List.mem_cons_of_mem _ hq))]

/-- C8: for all destination lists `E`, `N` and every flags value `f`, and every
visiting order of the six keys, the logger built with minimum level Debug from
the three global-default setters resolves Critical, Error and Warning to
`(E, label, f)` and Notice, Info and Debug to `(N, label, f)`.  For every
minimum level and visiting order, a global-default setter placed before a run
of per-level options builds the same logger as when it is placed after the
run. -/
theorem C8_global_defaults (visit : List LogLevel) (hv : visit.Perm levelKeys)
    (E N : List Writer) (f : Int) (minLevel : LogLevel) (pre ps post : List OptionCall)
    (g : OptionCall) (hg : ∀ l, g.target ≠ Target.level l)
    (hps : ∀ p ∈ ps, ∃ l, p.target = Target.level l) :
    (∀ L, L = LogLevelCritical ∨ L = LogLevelError ∨ L = LogLevelWarning →
      (NewLogger visit LogLevelDebug
        [SetDefaultErrorOutputsOpt E, SetDefaultNonErrorOutputOpt N,
          SetDefaultFlagsOpt f]).outputs L
        = some (log.New (io.MultiWriter E) (LogLevel.String L) f)) ∧
    (∀ L, L = LogLevelNotice ∨ L = LogLevelInfo ∨ L = LogLevelDebug →
      (NewLogger visit LogLevelDebug
        [SetDefaultErrorOutputsOpt E, SetDefaultNonErrorOutputOpt N,
          SetDefaultFlagsOpt f]).outputs L
        = some (log.New (io.MultiWriter N) (LogLevel.String L) f)) ∧
    NewLogger visit minLevel ((pre ++ g :: (ps ++ post)).map OptionCall.toOption)
      = NewLogger visit minLevel ((pre ++ (ps ++ g :: post)).map OptionCall.toOption) := by
  have hall : ∀ L, L ∈ levelKeys →
      (NewLogger visit LogLevelDebug
        [SetDefaultErrorOutputsOpt E, SetDefaultNonErrorOutputOpt N,
          SetDefaultFlagsOpt f]).outputs L
        = some (log.New
            (io.MultiWriter (if L ≥ LogLevelWarning then E else N)) (LogLevel.String L) f) := by
    intro L hL
    have h := NewLogger_outputs visit hv LogLevelDebug
      [OptionCall.defaultErrorOutputs E, OptionCall.defaultNonErrorOutput N,
        OptionCall.defaultFlags f] L hL
    have hc : mapIndex (finalSettings [OptionCall.defaultErrorOutputs E,
        OptionCall.defaultNonErrorOutput N, OptionCall.defaultFlags f]).LogLevelConfigs L
          = Config.zero := by
      unfold mapIndex finalSettings
      rw [applyOpts_untouched _ L (by simp [OptionCall.target])]
      rw [mem_levelKeys] at hL
      rcases hL with h1 | h1 | h1 | h1 | h1 | h1 <;> subst h1 <;> decide
    have hmin : L ≥ LogLevelDebug := ((mem_levelKeys_iff_range L).mp hL).1
    rw [hc, resolveConf_Outputs, resolveConf_Prefix, resolveConf_Flags] at h
    simp only [Config.zero, List.length_nil, hmin, and_self, if_true] at h
    exact h
  refine ⟨?_, ?_, ?_⟩
  · intro L hcase
    have hL : L ∈ levelKeys := by
      rw [mem_levelKeys]
      tauto
    have hw : L ≥ LogLevelWarning := by
      rcases hcase with h1 | h1 | h1 <;> subst h1 <;> decide
    rw [hall L hL, if_pos hw]
  · intro L hcase
    have hL : L ∈ levelKeys := by
      rw [mem_levelKeys]
      tauto
    have hw : ¬ L ≥ LogLevelWarning := by
      rcases hcase with h1 | h1 | h1 <;> subst h1 <;> decide
    rw [hall L hL, if_neg hw]
  · have hdiff : ∀ p ∈ ps, p.target ≠ g.target := by
      intro p hp heq
      obtain ⟨l, hl⟩ := hps p hp
      exact hg l (heq.symm.trans hl)
    unfold NewLogger resolvedSettings
    have hmove : applyOpts ((pre ++ g :: (ps ++ post)).map OptionCall.toOption) initialSettings
        = applyOpts ((pre ++ (ps ++ g :: post)).map OptionCall.toOption) initialSettings := by
      simp only [List.map_append, List.map_cons, applyOpts_append, applyOpts_cons]
      rw [applyOpts_move g ps hdiff]
    rw [hmove]

theorem C8_global_defaults_witness :
    NewLogger levelKeys LogLevelInfo
      (([] ++ OptionCall.defaultFlags 3 ::
          ([OptionCall.info ⟨[], "[I]", 0⟩, OptionCall.error ⟨[], "", 0⟩] ++ [])).map
            OptionCall.toOption)
      = NewLogger levelKeys LogLevelInfo
        (([] ++ ([OptionCall.info ⟨[], "[I]", 0⟩, OptionCall.error ⟨[], "", 0⟩] ++
            OptionCall.defaultFlags 3 :: [])).map OptionCall.toOption) :=
  (C8_global_defaults levelKeys (List.Perm.refl _) [Writer.sink 1] [Writer.sink 2] 3
    LogLevelInfo [] [OptionCall.info ⟨[], "[I]", 0⟩, OptionCall.error ⟨[], "", 0⟩] []
    (OptionCall.defaultFlags 3) (by intro l; simp [OptionCall.target])
    (by
      intro p hp
      simp only [List.mem_cons, List.mem_singleton, List.not_mem_nil, or_false] at hp
      rcases hp with h | h <;> subst h
      · exact ⟨LogLevelInfo, rfl⟩
      · exact ⟨LogLevelError, rfl⟩)).2.2

/-! ## Labels -/

/-- C9: `LogLevel.String` is a total function; on 1..6 it returns "[DEBUG]",
"[INFO]", "[NOTICE]", "[WARNING]", "[ERROR]", "[CRITICAL]", and on every other
integer, zero and the negative ones included, the text "invalid log level: "
followed by the decimal rendering of the integer. -/
theorem C9_String_total (n : LogLevel) :
    LogLevel.String 1 = "[DEBUG]" ∧ LogLevel.String 2 = "[INFO]" ∧
    LogLevel.String 3 = "[NOTICE]" ∧ LogLevel.String 4 = "[WARNING]" ∧
    LogLevel.String 5 = "[ERROR]" ∧ LogLevel.String 6 = "[CRITICAL]" ∧
    LogLevel.String 99 = "invalid log level: 99" ∧
    LogLevel.String 0 = "invalid log level: 0" ∧
    LogLevel.String (-12) = "invalid log level: -12" ∧
    LogLevel.String n =
      (if 1 ≤ n ∧ n ≤ 6 then
        (if n = 1 then "[DEBUG]" else if n = 2 then "[INFO]" else if n = 3 then "[NOTICE]"
         else if n = 4 then "[WARNING]" else if n = 5 then "[ERROR]" else "[CRITICAL]")
       else "invalid log level: " ++ fmt.decimal n) := by
  refine ⟨by decide, by decide, by decide, by decide, by decide, by decide, by decide,
    by decide, by decide, ?_⟩
  unfold LogLevel.String
  simp only [LogLevelCritical, LogLevelError, LogLevelWarning, LogLevelNotice, LogLevelInfo,
    LogLevelDebug]
  by_cases h6 : n = 6
  · subst h6; decide
  by_cases h5 : n = 5
  · subst h5; decide
  by_cases h4 : n = 4
  · subst h4; decide
  by_cases h3 : n = 3
  · subst h3; decide
  by_cases h2 : n = 2
  · subst h2; decide
  by_cases h1 : n = 1
  · subst h1; decide
  have hout : ¬ (1 ≤ n ∧ n ≤ 6) := by
    have : ∀ j : Int, j ≠ 6 → j ≠ 5 → j ≠ 4 → j ≠ 3 → j ≠ 2 → j ≠ 1 → ¬ (1 ≤ j ∧ j ≤ 6) := by
      intro j
      omega
    exact this n h6 h5 h4 h3 h2 h1
  simp only [h6, h5, h4, h3, h2, h1, hout, if_false]

/-! ## The table of the logger -/

/-- C10: for every visiting order, every minimum level (valid or not) and every
option list, the logger `NewLogger` returns has an entry for the six levels and
for no other key, also when the destinations of the entry are empty; the lookup
in `log` and `logf` finds the entry in each of the twelve operations, which is
then the `Output` call on that entry. -/
theorem C10_six_entries (visit : List LogLevel) (minLevel : LogLevel)
    (opts : List LoggerOption) (format : String) (v : List any) (env : Env) (w : World) :
    (∀ k, ((NewLogger visit minLevel opts).outputs k).isSome ↔ k ∈ levelKeys) ∧
    (∀ k, k ∈ levelKeys ↔ 1 ≤ k ∧ k ≤ 6) ∧
    (NewLogger levelKeys 7 []).outputs LogLevelDebug
      = some (log.New (io.MultiWriter []) "[DEBUG]" 11) ∧
    (∀ L, L ∈ levelKeys →
      ∃ logOutput, (NewLogger visit minLevel opts).outputs L = some logOutput ∧
        (NewLogger visit minLevel opts).log L v env w
          = (logOutput.Output 3 (fmt.Sprint v) env w).1 ∧
        (NewLogger visit minLevel opts).logf L format v env w
          = (logOutput.Output 3 (env.Sprintf format v) env w).1) ∧
    (∃ lc le lw ln li ld,
      (NewLogger visit minLevel opts).outputs LogLevelCritical = some lc ∧
      (NewLogger visit minLevel opts).outputs LogLevelError = some le ∧
      (NewLogger visit minLevel opts).outputs LogLevelWarning = some lw ∧
      (NewLogger visit minLevel opts).outputs LogLevelNotice = some ln ∧
      (NewLogger visit minLevel opts).outputs LogLevelInfo = some li ∧
      (NewLogger visit minLevel opts).outputs LogLevelDebug = some ld ∧
      (NewLogger visit minLevel opts).Critical v env w
        = (lc.Output 3 (fmt.Sprint v) env w).1 ∧
      (NewLogger visit minLevel opts).Criticalf format v env w
        = (lc.Output 3 (env.Sprintf format v) env w).1 ∧
      (NewLogger visit minLevel opts).Error v env w
        = (le.Output 3 (fmt.Sprint v) env w).1 ∧
      (NewLogger visit minLevel opts).Errorf format v env w
        = (le.Output 3 (env.Sprintf format v) env w).1 ∧
      (NewLogger visit minLevel opts).Warning v env w
        = (lw.Output 3 (fmt.Sprint v) env w).1 ∧
      (NewLogger visit minLevel opts).Warningf format v env w
        = (lw.Output 3 (env.Sprintf format v) env w).1 ∧
      (NewLogger visit minLevel opts).Notice v env w
        = (ln.Output 3 (fmt.Sprint v) env w).1 ∧
      (NewLogger visit minLevel opts).Noticef format v env w
        = (ln.Output 3 (env.Sprintf format v) env w).1 ∧
      (NewLogger visit minLevel opts).Info v env w
        = (li.Output 3 (fmt.Sprint v) env w).1 ∧
      (NewLogger visit minLevel opts).Infof format v env w
        = (li.Output 3 (env.Sprintf format v) env w).1 ∧
      (NewLogger visit minLevel opts).Debug v env w
        = (ld.Output 3 (fmt.Sprint v) env w).1 ∧
      (NewLogger visit minLevel opts).Debugf format v env w
        = (ld.Output 3 (env.Sprintf format v) env w).1) := by
  have hkeys : ∀ k, ((NewLogger visit minLevel opts).outputs k).isSome ↔ k ∈ levelKeys := by
    intro k
    rw [mem_levelKeys]
    unfold NewLogger
    simp only []
    split_ifs <;> simp_all
  have hentry : ∀ L, L ∈ levelKeys →
      ∃ logOutput, (NewLogger visit minLevel opts).outputs L = some logOutput ∧
        (NewLogger visit minLevel opts).log L v env w
          = (logOutput.Output 3 (fmt.Sprint v) env w).1 ∧
        (NewLogger visit minLevel opts).logf L format v env w
          = (logOutput.Output 3 (env.Sprintf format v) env w).1 := by
    intro L hL
    have hsome := (hkeys L).mpr hL
    obtain ⟨lo, hlo⟩ := Option.isSome_iff_exists.mp hsome
    refine ⟨lo, hlo, ?_, ?_⟩
    · unfold logger.log
      rw [hlo]
    · unfold logger.logf
      rw [hlo]
  refine ⟨hkeys, mem_levelKeys_iff_range, by decide, hentry, ?_⟩
  obtain ⟨lc, hc, hc1, hc2⟩ := hentry LogLevelCritical (by decide)
  obtain ⟨le, he, he1, he2⟩ := hentry LogLevelError (by decide)
  obtain ⟨lw, hw, hw1, hw2⟩ := hentry LogLevelWarning (by decide)
  obtain ⟨ln, hn, hn1, hn2⟩ := hentry LogLevelNotice (by decide)
  obtain ⟨li, hi, hi1, hi2⟩ := hentry LogLevelInfo (by decide)
  obtain ⟨ld, hd, hd1, hd2⟩ := hentry LogLevelDebug (by decide)
  exact ⟨lc, le, lw, ln, li, ld, hc, he, hw, hn, hi, hd, hc1, hc2, he1, he2, hw1, hw2,
    hn1, hn2, hi1, hi2, hd1, hd2⟩

/-! ## Writes -/

/-- The entry `NewLogger` builds for each of the six levels is the pipeline of
the resolved configuration, for every visiting order of the six keys. -/
theorem NewLogger_entry (visit : List LogLevel) (hv : visit.Perm levelKeys)
    (m : LogLevel) (calls : List OptionCall) (L : LogLevel) (hL : L ∈ levelKeys) :
    (NewLogger visit m (calls.map OptionCall.toOption)).outputs L
      = some (resolvedLogger m calls L) :=
  NewLogger_outputs visit hv m calls L hL

theorem Write_nil (p : String) (w : World) : io.multiWriter.Write [] p w = (w, false) := rfl

/-- A multi-writer write does not change which sinks report errors. -/
theorem Write_failing (ws : List Writer) (p : String) (w : World) :
    (io.multiWriter.Write ws p w).1.failing = w.failing := by
  induction ws generalizing w with
  | nil => rfl
  | cons y rest ih =>
    unfold io.multiWriter.Write
    by_cases hy : w.failing y = true
    · rw [if_pos hy]
    · rw [if_neg hy, ih]

/-- A multi-writer write hands nothing to a sink that is not in its list. -/
theorem Write_frame (ws : List Writer) (p : String) (w : World) (x : Writer)
    (hx : x ∉ ws) : (io.multiWriter.Write ws p w).1.written x = w.written x := by
  induction ws generalizing w with
  | nil => rfl
  | cons y rest ih =>
    have hxy : x ≠ y := fun h => hx (h ▸ List.mem_cons_self _ _)
    have hxr : x ∉ rest := fun h => hx (List.mem_cons_of_mem _ h)
    unfold io.multiWriter.Write
    by_cases hy : w.failing y = true
    · rw [if_pos hy]
      simp [hxy]
    · rw [if_neg hy, ih _ hxr]
      simp [hxy]

/-- What a multi-writer write hands to a sink is copies of the one byte string,
at most one for each time the sink is listed. -/
theorem Write_appends (ws : List Writer) (p : String) (w : World) (x : Writer) :
    ∃ n, n ≤ ws.count x ∧
      (io.multiWriter.Write ws p w).1.written x = w.written x ++ List.replicate n p := by
  induction ws generalizing w with
  | nil => exact ⟨0, by simp, by simp [io.multiWriter.Write]⟩
  | cons y rest ih =>
    unfold io.multiWriter.Write
    by_cases hxy : x = y
    · subst hxy
      by_cases hy : w.failing x = true
      · rw [if_pos hy]
        exact ⟨1, by simp, by simp⟩
      · rw [if_neg hy]
        obtain ⟨n, hn, hw⟩ := ih
          { w with written := fun z => if z = x then w.written z ++ [p] else w.written z }
        refine ⟨n + 1, by simp [List.count_cons]; exact hn, ?_⟩
        rw [hw]
        simp [List.replicate_succ]
    · have hyx : ¬ y = x := fun h => hxy h.symm
      by_cases hy : w.failing y = true
      · rw [if_pos hy]
        exact ⟨0, by simp, by simp [hxy]⟩
      · rw [if_neg hy]
        obtain ⟨n, hn, hw⟩ := ih
          { w with written := fun z => if z = y then w.written z ++ [p] else w.written z }
        refine ⟨n, by simp [List.count_cons, hyx]; exact hn, ?_⟩
        rw [hw]
        simp [hxy]

/-- When no sink of the list reports an error, a multi-writer write reports
none and hands the byte string to every sink of the list, once for each time it
is listed. -/
theorem Write_all (ws : List Writer) (p : String) (w : World)
    (hok : ∀ x ∈ ws, w.failing x = false) :
    (io.multiWriter.Write ws p w).2 = false ∧
    ∀ x, (io.multiWriter.Write ws p w).1.written x
      = w.written x ++ List.replicate (ws.count x) p := by
  induction ws generalizing w with
  | nil => exact ⟨rfl, by simp [io.multiWriter.Write]⟩
  | cons y rest ih =>
    have hy : ¬ w.failing y = true := by
      rw [hok y (List.mem_cons_self _ _)]
      simp
    unfold io.multiWriter.Write
    rw [if_neg hy]
    obtain ⟨h2, hw⟩ := ih
      { w with written := fun z => if z = y then w.written z ++ [p] else w.written z }
      (fun x hx => hok x (List.mem_cons_of_mem _ hx))
    refine ⟨h2, ?_⟩
    intro x
    rw [hw x]
    by_cases hxy : x = y
    · subst hxy
      simp [List.count_cons, List.replicate_succ]
    · have hyx : ¬ y = x := fun h => hxy h.symm
      simp [List.count_cons, hxy, hyx]

/-- For every visiting order of the six keys, `log` at one of the six levels is
the multi-writer write of the assembled line on the pipeline resolved for that
level. -/
theorem log_eq_Write (visit : List LogLevel) (hv : visit.Perm levelKeys)
    (m : LogLevel) (calls : List OptionCall) (L : LogLevel) (hL : L ∈ levelKeys)
    (v : List any) (env : Env) (w : World) :
    (NewLogger visit m (calls.map OptionCall.toOption)).log L v env w
      = (io.multiWriter.Write (resolvedConf m calls L).Outputs
          ((resolvedLogger m calls L).line (fmt.Sprint v) env) w).1 := by
  unfold logger.log
  rw [NewLogger_entry visit hv m calls L hL]
  rfl

theorem logf_eq_Write (visit : List LogLevel) (hv : visit.Perm levelKeys)
    (m : LogLevel) (calls : List OptionCall) (L : LogLevel) (hL : L ∈ levelKeys)
    (format : String) (v : List any) (env : Env) (w : World) :
    (NewLogger visit m (calls.map OptionCall.toOption)).logf L format v env w
      = (io.multiWriter.Write (resolvedConf m calls L).Outputs
          ((resolvedLogger m calls L).line (env.Sprintf format v) env) w).1 := by
  unfold logger.logf
  rw [NewLogger_entry visit hv m calls L hL]
  rfl

/-! ## Dispatch -/

/-- C11: for every visiting order of the six keys, every minimum level, option
list, argument list and state of the sinks, each of the twelve operations is
the multi-writer write, on the destinations resolved for its own level, of the
line assembled with the prefix and flags resolved for its own level.  Such a
write hands nothing to a sink outside those destinations (a sink that only
another level lists), and when none of the destinations reports an error it
hands the line to each of them. -/
theorem C11_dispatch_own_level (visit : List LogLevel) (hv : visit.Perm levelKeys)
    (minLevel : LogLevel) (calls : List OptionCall) (format : String) (v : List any)
    (env : Env) (w : World) (l : logger)
    (hl : l = NewLogger visit minLevel (calls.map OptionCall.toOption)) :
    (l.Critical v env w
      = (io.multiWriter.Write (resolvedConf minLevel calls LogLevelCritical).Outputs
          ((resolvedLogger minLevel calls LogLevelCritical).line (fmt.Sprint v) env) w).1 ∧
     l.Criticalf format v env w
      = (io.multiWriter.Write (resolvedConf minLevel calls LogLevelCritical).Outputs
          ((resolvedLogger minLevel calls LogLevelCritical).line
            (env.Sprintf format v) env) w).1 ∧
     l.Error v env w
      = (io.multiWriter.Write (resolvedConf minLevel calls LogLevelError).Outputs
          ((resolvedLogger minLevel calls LogLevelError).line (fmt.Sprint v) env) w).1 ∧
     l.Errorf format v env w
      = (io.multiWriter.Write (resolvedConf minLevel calls LogLevelError).Outputs
          ((resolvedLogger minLevel calls LogLevelError).line
            (env.Sprintf format v) env) w).1 ∧
     l.Warning v env w
      = (io.multiWriter.Write (resolvedConf minLevel calls LogLevelWarning).Outputs
          ((resolvedLogger minLevel calls LogLevelWarning).line (fmt.Sprint v) env) w).1 ∧
     l.Warningf format v env w
      = (io.multiWriter.Write (resolvedConf minLevel calls LogLevelWarning).Outputs
          ((resolvedLogger minLevel calls LogLevelWarning).line
            (env.Sprintf format v) env) w).1 ∧
     l.Notice v env w
      = (io.multiWriter.Write (resolvedConf minLevel calls LogLevelNotice).Outputs
          ((resolvedLogger minLevel calls LogLevelNotice).line (fmt.Sprint v) env) w).1 ∧
     l.Noticef format v env w
      = (io.multiWriter.Write (resolvedConf minLevel calls LogLevelNotice).Outputs
          ((resolvedLogger minLevel calls LogLevelNotice).line
            (env.Sprintf format v) env) w).1 ∧
     l.Info v env w
      = (io.multiWriter.Write (resolvedConf minLevel calls LogLevelInfo).Outputs
          ((resolvedLogger minLevel calls LogLevelInfo).line (fmt.Sprint v) env) w).1 ∧
     l.Infof format v env w
      = (io.multiWriter.Write (resolvedConf minLevel calls LogLevelInfo).Outputs
          ((resolvedLogger minLevel calls LogLevelInfo).line
            (env.Sprintf format v) env) w).1 ∧
     l.Debug v env w
      = (io.multiWriter.Write (resolvedConf minLevel calls LogLevelDebug).Outputs
          ((resolvedLogger minLevel calls LogLevelDebug).line (fmt.Sprint v) env) w).1 ∧
     l.Debugf format v env w
      = (io.multiWriter.Write (resolvedConf minLevel calls LogLevelDebug).Outputs
          ((resolvedLogger minLevel calls LogLevelDebug).line
            (env.Sprintf format v) env) w).1) ∧
    (∀ (L : LogLevel) (p : String) (x : Writer),
      x ∉ (resolvedConf minLevel calls L).Outputs →
      (io.multiWriter.Write (resolvedConf minLevel calls L).Outputs p w).1.written x
        = w.written x) ∧
    (∀ (L : LogLevel) (p : String),
      (∀ x ∈ (resolvedConf minLevel calls L).Outputs, w.failing x = false) →
      ∀ x, (io.multiWriter.Write (resolvedConf minLevel calls L).Outputs p w).1.written x
        = w.written x ++ List.replicate ((resolvedConf minLevel calls L).Outputs.count x) p) := by
  subst hl
  refine ⟨⟨?_, ?_, ?_, ?_, ?_, ?_, ?_, ?_, ?_, ?_, ?_, ?_⟩, ?_, ?_⟩
  · exact log_eq_Write visit hv minLevel calls LogLevelCritical (by decide) v env w
  · exact logf_eq_Write visit hv minLevel calls LogLevelCritical (by decide) format v env w
  · exact log_eq_Write visit hv minLevel calls LogLevelError (by decide) v env w
  · exact logf_eq_Write visit hv minLevel calls LogLevelError (by decide) format v env w
  · exact log_eq_Write visit hv minLevel calls LogLevelWarning (by decide) v env w
  · exact logf_eq_Write visit hv minLevel calls LogLevelWarning (by decide) format v env w
  · exact log_eq_Write visit hv minLevel calls LogLevelNotice (by decide) v env w
  · exact logf_eq_Write visit hv minLevel calls LogLevelNotice (by decide) format v env w
  · exact log_eq_Write visit hv minLevel calls LogLevelInfo (by decide) v env w
  · exact logf_eq_Write visit hv minLevel calls LogLevelInfo (by decide) format v env w
  · exact log_eq_Write visit hv minLevel calls LogLevelDebug (by decide) v env w
  · exact logf_eq_Write visit hv minLevel calls LogLevelDebug (by decide) format v env w
  · intro L p x hx
    exact Write_frame _ p w x hx
  · intro L p hok
    exact (Write_all _ p w hok).2

theorem C11_dispatch_own_level_witness :
    ((NewLogger levelKeys LogLevelCritical
        ([OptionCall.error ⟨[Writer.sink 0], "", 0⟩,
          OptionCall.critical ⟨[Writer.sink 1], "", 0⟩].map OptionCall.toOption)).Error
      [⟨"test", true⟩] ⟨fun _ => " <stamp> ", fun f _ => f⟩
      ⟨fun _ => [], fun _ => false⟩).written (Writer.sink 0)
      = ["[ERROR] <stamp> test\n"] ∧
    ((NewLogger levelKeys LogLevelCritical
        ([OptionCall.error ⟨[Writer.sink 0], "", 0⟩,
          OptionCall.critical ⟨[Writer.sink 1], "", 0⟩].map OptionCall.toOption)).Error
      [⟨"test", true⟩] ⟨fun _ => " <stamp> ", fun f _ => f⟩
      ⟨fun _ => [], fun _ => false⟩).written (Writer.sink 1)
      = [] := by
  have h := (C11_dispatch_own_level levelKeys (List.Perm.refl _) LogLevelCritical
    [OptionCall.error ⟨[Writer.sink 0], "", 0⟩, OptionCall.critical ⟨[Writer.sink 1], "", 0⟩]
    "" [⟨"test", true⟩] ⟨fun _ => " <stamp> ", fun f _ => f⟩ ⟨fun _ => [], fun _ => false⟩
    _ rfl).1.2.2.1
  rw [h]
  decide

/-- A multi-writer with one sink hands the byte string to it, whether or not
the sink reports an error. -/
theorem Write_singleton (x : Writer) (p : String) (w : World) (y : Writer) :
    (io.multiWriter.Write [x] p w).1.written y
      = if y = x then w.written y ++ [p] else w.written y := by
  unfold io.multiWriter.Write
  by_cases hx : w.failing x = true
  · rw [if_pos hx]
  · rw [if_neg hx]
    rfl

/-- The line of a pipeline whose flags do not include `Lmsgprefix`. -/
theorem line_prefix_first (l : log.Logger) (s : String) (env : Env)
    (h : Int.land l.flag log.Lmsgprefix = 0) :
    l.line s env
      = l.pfx ++ env.header l.flag ++ s
          ++ (if s.data.getLast? = some '\n' then "" else "\n") := by
  unfold log.Logger.line
  rw [if_pos h, if_pos h]
  simp

/-- The line of a pipeline whose flags include `Lmsgprefix`. -/
theorem line_header_first (l : log.Logger) (s : String) (env : Env)
    (h : Int.land l.flag log.Lmsgprefix ≠ 0) :
    l.line s env
      = env.header l.flag ++ l.pfx ++ s
          ++ (if s.data.getLast? = some '\n' then "" else "\n") := by
  unfold log.Logger.line
  rw [if_neg h, if_neg h]
  simp

/-! ## Levels without destination -/

/-- C12: for every visiting order of the six keys, every minimum level and
option list, and every level whose resolved destination set is empty, the plain
and the formatted operation of the level leave the state of the sinks as it
was, for every argument list, and the write reports no error.  With minimum
level Warning and no option, Info and Infof change nothing, and Error hands to
standard error one line, "[ERROR]" followed by the header, the text and the
line terminator, and nothing to any other sink. -/
theorem C12_empty_destinations_noop (visit : List LogLevel) (hv : visit.Perm levelKeys)
    (minLevel : LogLevel) (calls : List OptionCall) (format : String) (v : List any)
    (env : Env) (w : World) (l : logger)
    (hl : l = NewLogger visit minLevel (calls.map OptionCall.toOption)) :
    (∀ L, L ∈ levelKeys → (resolvedConf minLevel calls L).Outputs = [] →
      l.log L v env w = w ∧ l.logf L format v env w = w ∧
      ∀ s, (resolvedLogger minLevel calls L).Output 3 s env w = (w, false)) ∧
    ((resolvedConf minLevel calls LogLevelCritical).Outputs = [] →
      l.Critical v env w = w ∧ l.Criticalf format v env w = w) ∧
    ((resolvedConf minLevel calls LogLevelError).Outputs = [] →
      l.Error v env w = w ∧ l.Errorf format v env w = w) ∧
    ((resolvedConf minLevel calls LogLevelWarning).Outputs = [] →
      l.Warning v env w = w ∧ l.Warningf format v env w = w) ∧
    ((resolvedConf minLevel calls LogLevelNotice).Outputs = [] →
      l.Notice v env w = w ∧ l.Noticef format v env w = w) ∧
    ((resolvedConf minLevel calls LogLevelInfo).Outputs = [] →
      l.Info v env w = w ∧ l.Infof format v env w = w) ∧
    ((resolvedConf minLevel calls LogLevelDebug).Outputs = [] →
      l.Debug v env w = w ∧ l.Debugf format v env w = w) ∧
    (NewLogger visit LogLevelWarning []).Info v env w = w ∧
    (NewLogger visit LogLevelWarning []).Infof format v env w = w ∧
    ((NewLogger visit LogLevelWarning []).Error v env w).written os.Stderr
      = w.written os.Stderr ++
          ["[ERROR]" ++ env.header 11 ++ fmt.Sprint v
            ++ (if (fmt.Sprint v).data.getLast? = some '\n' then "" else "\n")] ∧
    (∀ x, x ≠ os.Stderr →
      ((NewLogger visit LogLevelWarning []).Error v env w).written x = w.written x) := by
  subst hl
  have hnoop : ∀ L, L ∈ levelKeys → (resolvedConf minLevel calls L).Outputs = [] →
      (NewLogger visit minLevel (calls.map OptionCall.toOption)).log L v env w = w ∧
      (NewLogger visit minLevel (calls.map OptionCall.toOption)).logf L format v env w = w ∧
      ∀ s, (resolvedLogger minLevel calls L).Output 3 s env w = (w, false) := by
    intro L hL hempty
    refine ⟨?_, ?_, ?_⟩
    · rw [log_eq_Write visit hv minLevel calls L hL, hempty, Write_nil]
    · rw [logf_eq_Write visit hv minLevel calls L hL, hempty, Write_nil]
    · intro s
      show io.multiWriter.Write (resolvedConf minLevel calls L).Outputs _ w = (w, false)
      rw [hempty, Write_nil]
  have hInfo : (resolvedConf LogLevelWarning [] LogLevelInfo).Outputs = [] := by decide
  have hErr : resolvedLogger LogLevelWarning [] LogLevelError
      = log.New (io.MultiWriter [os.Stderr]) "[ERROR]" 11 := by decide
  have hErrOut : (resolvedConf LogLevelWarning [] LogLevelError).Outputs = [os.Stderr] := by
    decide
  have hline : ∀ s, (resolvedLogger LogLevelWarning [] LogLevelError).line s env
      = "[ERROR]" ++ env.header 11 ++ s
          ++ (if s.data.getLast? = some '\n' then "" else "\n") := by
    intro s
    rw [hErr]
    exact line_prefix_first _ s env (by decide)
  have hError : (NewLogger visit LogLevelWarning []).Error v env w
      = (io.multiWriter.Write [os.Stderr]
          ("[ERROR]" ++ env.header 11 ++ fmt.Sprint v
            ++ (if (fmt.Sprint v).data.getLast? = some '\n' then "" else "\n")) w).1 := by
    have h := log_eq_Write visit hv LogLevelWarning [] LogLevelError (by decide) v env w
    rw [hErrOut, hline] at h
    exact h
  refine ⟨hnoop, ?_, ?_, ?_, ?_, ?_, ?_, ?_, ?_, ?_, ?_⟩
  · intro h
    exact ⟨(hnoop LogLevelCritical (by decide) h).1, (hnoop LogLevelCritical (by decide) h).2.1⟩
  · intro h
    exact ⟨(hnoop LogLevelError (by decide) h).1, (hnoop LogLevelError (by decide) h).2.1⟩
  · intro h
    exact ⟨(hnoop LogLevelWarning (by decide) h).1, (hnoop LogLevelWarning (by decide) h).2.1⟩
  · intro h
    exact ⟨(hnoop LogLevelNotice (by decide) h).1, (hnoop LogLevelNotice (by decide) h).2.1⟩
  · intro h
    exact ⟨(hnoop LogLevelInfo (by decide) h).1, (hnoop LogLevelInfo (by decide) h).2.1⟩
  · intro h
    exact ⟨(hnoop LogLevelDebug (by decide) h).1, (hnoop LogLevelDebug (by decide) h).2.1⟩
  · have h := log_eq_Write visit hv LogLevelWarning [] LogLevelInfo (by decide) v env w
    rw [hInfo, Write_nil] at h
    exact h
  · have h := logf_eq_Write visit hv LogLevelWarning [] LogLevelInfo (by decide) format v env w
    rw [hInfo, Write_nil] at h
    exact h
  · rw [hError, Write_singleton, if_pos rfl]
  · intro x hx
    rw [hError, Write_singleton, if_neg hx]

theorem C12_empty_destinations_noop_witness :
    (NewLogger levelKeys LogLevelError
        ([OptionCall.notice ⟨[], "[N]", 3⟩].map OptionCall.toOption)).Notice
      [⟨"a", true⟩, ⟨"b", true⟩] ⟨fun _ => "", fun f _ => f⟩
      ⟨fun _ => ["old"], fun _ => false⟩
      = ⟨fun _ => ["old"], fun _ => false⟩ :=
  ((C12_empty_destinations_noop levelKeys (List.Perm.refl _) LogLevelError
    [OptionCall.notice ⟨[], "[N]", 3⟩] "" [⟨"a", true⟩, ⟨"b", true⟩]
    ⟨fun _ => "", fun f _ => f⟩ ⟨fun _ => ["old"], fun _ => false⟩ _ rfl).2.2.2.2.1
      (by decide)).1

/-! ## Content of a line -/

theorem String_join_cons (a : String) (ss : List String) :
    String.join (a :: ss) = a ++ String.join ss := by
  rw [String.join_eq, String.join_eq]
  apply String.ext
  simp [String.data_append]

theorem Sprint_cons_cons (a b : any) (rest : List any) :
    fmt.Sprint (a :: b :: rest)
      = a.text ++ (if !a.isString && !b.isString then " " else "")
          ++ fmt.Sprint (b :: rest) := by
  rw [fmt.Sprint]

/-- On operands of which no two adjacent ones are both non-strings, `fmt.Sprint`
is the concatenation of the renderings. -/
theorem Sprint_eq_join (v : List any)
    (h : List.Chain' (fun a b => a.isString = true ∨ b.isString = true) v) :
    fmt.Sprint v = String.join (v.map any.text) := by
  induction v with
  | nil => rfl
  | cons a rest ih =>
    cases rest with
    | nil => simp [fmt.Sprint, String_join_cons, String.join]
    | cons b rest2 =>
      have hab : a.isString = true ∨ b.isString = true := (List.chain'_cons.mp h).1
      have hrest := (List.chain'_cons.mp h).2
      have hsep : (!a.isString && !b.isString) = false := by
        rcases hab with h1 | h1 <;> simp [h1]
      rw [List.map_cons, String_join_cons, ← ih hrest, Sprint_cons_cons, hsep]
      simp

/-- C13, as stated, fails for two integers: with the Critical destinations set
to one sink, `Critical(1, 2)` hands the sink a line whose content is "1 2",
not "12". -/
theorem C13_space_between_integers :
    fmt.Sprint [⟨"1", false⟩, ⟨"2", false⟩] = "1 2" ∧
    fmt.Sprint [⟨"1", false⟩, ⟨"2", false⟩] ≠ "12" ∧
    ((NewLogger levelKeys LogLevelDebug
        ([OptionCall.critical ⟨[Writer.sink 0], "", 0⟩].map OptionCall.toOption)).Critical
      [⟨"1", false⟩, ⟨"2", false⟩] ⟨fun _ => "", fun f _ => f⟩
      ⟨fun _ => [], fun _ => false⟩).written (Writer.sink 0)
      = ["[CRITICAL]1 2\n"] := by
  decide

/-- C13, amended: for every visiting order of the six keys and every argument
list, the content of the line a plain operation writes is `fmt.Sprint` of the
arguments: the renderings of the arguments in order, with one space between two
adjacent arguments when neither is a string (1 and 2 give "1 2") and nothing
between them otherwise; when no two adjacent arguments are both non-strings it
is the concatenation of the renderings without separator. -/
theorem C13_plain_content (visit : List LogLevel) (hv : visit.Perm levelKeys)
    (minLevel : LogLevel) (calls : List OptionCall) (v : List any) (env : Env) (w : World)
    (l : logger) (hl : l = NewLogger visit minLevel (calls.map OptionCall.toOption)) :
    (l.Critical v env w
      = ((resolvedLogger minLevel calls LogLevelCritical).Output 3 (fmt.Sprint v) env w).1 ∧
     l.Error v env w
      = ((resolvedLogger minLevel calls LogLevelError).Output 3 (fmt.Sprint v) env w).1 ∧
     l.Warning v env w
      = ((resolvedLogger minLevel calls LogLevelWarning).Output 3 (fmt.Sprint v) env w).1 ∧
     l.Notice v env w
      = ((resolvedLogger minLevel calls LogLevelNotice).Output 3 (fmt.Sprint v) env w).1 ∧
     l.Info v env w
      = ((resolvedLogger minLevel calls LogLevelInfo).Output 3 (fmt.Sprint v) env w).1 ∧
     l.Debug v env w
      = ((resolvedLogger minLevel calls LogLevelDebug).Output 3 (fmt.Sprint v) env w).1) ∧
    (List.Chain' (fun a b => a.isString = true ∨ b.isString = true) v →
      fmt.Sprint v = String.join (v.map any.text)) ∧
    (∀ a b : any, a.isString = false → b.isString = false →
      fmt.Sprint [a, b] = a.text ++ " " ++ b.text) ∧
    (∀ (a b : any) (rest : List any),
      fmt.Sprint (a :: b :: rest)
        = a.text ++ (if a.isString = false ∧ b.isString = false then " " else "")
            ++ fmt.Sprint (b :: rest)) ∧
    (∀ a : any, fmt.Sprint [a] = a.text) ∧ fmt.Sprint [] = "" := by
  subst hl
  refine ⟨⟨?_, ?_, ?_, ?_, ?_, ?_⟩, Sprint_eq_join v, ?_, ?_, fun a => rfl, rfl⟩
  · exact log_eq_Write visit hv minLevel calls LogLevelCritical (by decide) v env w
  · exact log_eq_Write visit hv minLevel calls LogLevelError (by decide) v env w
  · exact log_eq_Write visit hv minLevel calls LogLevelWarning (by decide) v env w
  · exact log_eq_Write visit hv minLevel calls LogLevelNotice (by decide) v env w
  · exact log_eq_Write visit hv minLevel calls LogLevelInfo (by decide) v env w
  · exact log_eq_Write visit hv minLevel calls LogLevelDebug (by decide) v env w
  · intro a b ha hb
    simp [fmt.Sprint, ha, hb]
  · intro a b rest
    cases ha : a.isString <;> cases hb : b.isString <;> simp [fmt.Sprint, ha, hb]

theorem C13_plain_content_witness :
    fmt.Sprint [⟨"a", true⟩, ⟨"7", false⟩, ⟨"b", true⟩]
      = String.join ([⟨"a", true⟩, ⟨"7", false⟩, ⟨"b", true⟩].map any.text) :=
  (C13_plain_content levelKeys (List.Perm.refl _) LogLevelDebug []
    [⟨"a", true⟩, ⟨"7", false⟩, ⟨"b", true⟩] ⟨fun _ => "", fun f _ => f⟩
    ⟨fun _ => [], fun _ => false⟩ _ rfl).2.1 (by simp)

/-- The line of a resolved pipeline, spelled out. -/
theorem resolvedLogger_line (minLevel : LogLevel) (calls : List OptionCall) (L : LogLevel)
    (s : String) (env : Env) :
    (resolvedLogger minLevel calls L).line s env
      = (if Int.land (resolvedConf minLevel calls L).Flags log.Lmsgprefix = 0
          then (resolvedConf minLevel calls L).Prefix
            ++ env.header (resolvedConf minLevel calls L).Flags
          else env.header (resolvedConf minLevel calls L).Flags
            ++ (resolvedConf minLevel calls L).Prefix)
        ++ s ++ (if s.data.getLast? = some '\n' then "" else "\n") := by
  by_cases h : Int.land (resolvedConf minLevel calls L).Flags log.Lmsgprefix = 0
  · rw [if_pos h]
    exact line_prefix_first (resolvedLogger minLevel calls L) s env h
  · rw [if_neg h]
    exact line_header_first (resolvedLogger minLevel calls L) s env h

/-- C14, as stated, fails in two ways.  A content that already ends in a line
terminator gets no second one: `Critical("test\n")` hands the sink
"[CRITICAL]<header>test\n".  And with the flags `Lmsgprefix|Ldate` on the
level (a header that shows the date) the header comes before the prefix:
`Critical("test")` hands the sink "<header>[CRITICAL]test\n". -/
theorem C14_terminator_and_prefix_place :
    ((NewLogger levelKeys LogLevelDebug
        ([OptionCall.critical ⟨[Writer.sink 0], "", 0⟩].map OptionCall.toOption)).Critical
      [⟨"test\n", true⟩] ⟨fun _ => "<header>", fun f _ => f⟩
      ⟨fun _ => [], fun _ => false⟩).written (Writer.sink 0)
      = ["[CRITICAL]<header>test\n"] ∧
    "[CRITICAL]<header>test\n" ≠ "[CRITICAL]" ++ "<header>" ++ "test\n" ++ "\n" ∧
    ((NewLogger levelKeys LogLevelDebug
        ([OptionCall.critical ⟨[Writer.sink 0], "", Int.lor log.Lmsgprefix log.Ldate⟩].map
          OptionCall.toOption)).Critical
      [⟨"test", true⟩] ⟨fun _ => "<header>", fun f _ => f⟩
      ⟨fun _ => [], fun _ => false⟩).written (Writer.sink 0)
      = ["<header>[CRITICAL]test\n"] ∧
    "<header>[CRITICAL]test\n" ≠ "[CRITICAL]" ++ "<header>" ++ "test" ++ "\n" := by
  decide

/-- C14, amended: for every visiting order of the six keys, every level of the
six and every content `m` of a plain or formatted call, the bytes handed to the
destinations of the level are the resolved prefix then the header of the
resolved flags (the header then the prefix when the flags include
`Lmsgprefix`), then `m`, then a line terminator unless `m` already ends in one
(an empty `m` gets one).  A destination is handed only copies of that line, one
for each time it is listed when no destination reports an error. -/
theorem C14_line_bytes (visit : List LogLevel) (hv : visit.Perm levelKeys)
    (minLevel : LogLevel) (calls : List OptionCall) (L : LogLevel) (hL : L ∈ levelKeys)
    (format : String) (v : List any) (env : Env) (w : World) (l : logger)
    (hl : l = NewLogger visit minLevel (calls.map OptionCall.toOption)) :
    (∀ m : String,
      (resolvedLogger minLevel calls L).line m env
        = (if Int.land (resolvedConf minLevel calls L).Flags log.Lmsgprefix = 0
            then (resolvedConf minLevel calls L).Prefix
              ++ env.header (resolvedConf minLevel calls L).Flags
            else env.header (resolvedConf minLevel calls L).Flags
              ++ (resolvedConf minLevel calls L).Prefix)
          ++ m ++ (if m.data.getLast? = some '\n' then "" else "\n")) ∧
    l.log L v env w
      = (io.multiWriter.Write (resolvedConf minLevel calls L).Outputs
          ((resolvedLogger minLevel calls L).line (fmt.Sprint v) env) w).1 ∧
    l.logf L format v env w
      = (io.multiWriter.Write (resolvedConf minLevel calls L).Outputs
          ((resolvedLogger minLevel calls L).line (env.Sprintf format v) env) w).1 ∧
    (∀ (p : String) (x : Writer),
      ∃ n, n ≤ (resolvedConf minLevel calls L).Outputs.count x ∧
        (io.multiWriter.Write (resolvedConf minLevel calls L).Outputs p w).1.written x
          = w.written x ++ List.replicate n p) ∧
    (∀ p : String,
      (∀ x ∈ (resolvedConf minLevel calls L).Outputs, w.failing x = false) →
      ∀ x, (io.multiWriter.Write (resolvedConf minLevel calls L).Outputs p w).1.written x
        = w.written x ++ List.replicate ((resolvedConf minLevel calls L).Outputs.count x) p) ∧
    (resolvedLogger minLevel calls L).line "" env
      = (if Int.land (resolvedConf minLevel calls L).Flags log.Lmsgprefix = 0
          then (resolvedConf minLevel calls L).Prefix
            ++ env.header (resolvedConf minLevel calls L).Flags
          else env.header (resolvedConf minLevel calls L).Flags
            ++ (resolvedConf minLevel calls L).Prefix) ++ "\n" := by
  subst hl
  refine ⟨fun m => resolvedLogger_line minLevel calls L m env,
    log_eq_Write visit hv minLevel calls L hL v env w,
    logf_eq_Write visit hv minLevel calls L hL format v env w,
    fun p x => Write_appends _ p w x,
    fun p hok => (Write_all _ p w hok).2, ?_⟩
  rw [resolvedLogger_line]
  simp

theorem C14_line_bytes_witness :
    ((NewLogger levelKeys LogLevelDebug
        ([OptionCall.critical ⟨[Writer.sink 0], "", 0⟩].map OptionCall.toOption)).log
      LogLevelCritical [⟨"test", true⟩] ⟨fun _ => "<header>", fun f _ => f⟩
      ⟨fun _ => [], fun _ => false⟩).written (Writer.sink 0)
      = ["[CRITICAL]<header>test\n"] := by
  have h := (C14_line_bytes levelKeys (List.Perm.refl _) LogLevelDebug
    [OptionCall.critical ⟨[Writer.sink 0], "", 0⟩] LogLevelCritical (by decide) ""
    [⟨"test", true⟩] ⟨fun _ => "<header>", fun f _ => f⟩ ⟨fun _ => [], fun _ => false⟩
    _ rfl).2.1
  rw [h]
  decide

/-! ## No failure -/

/-- The logger has an entry for the six levels and for no other key. -/
theorem NewLogger_keys (visit : List LogLevel) (minLevel : LogLevel)
    (opts : List LoggerOption) (k : LogLevel) :
    ((NewLogger visit minLevel opts).outputs k).isSome ↔ k ∈ levelKeys := by
  rw [mem_levelKeys]
  unfold NewLogger
  simp only []
  split_ifs <;> simp_all

/-- A multi-writer write reports an error exactly when one of its sinks does. -/
theorem Write_error_iff (ws : List Writer) (p : String) (w : World) :
    (io.multiWriter.Write ws p w).2 = true ↔ ∃ x ∈ ws, w.failing x = true := by
  induction ws generalizing w with
  | nil => simp [io.multiWriter.Write]
  | cons y rest ih =>
    unfold io.multiWriter.Write
    by_cases hy : w.failing y = true
    · rw [if_pos hy]
      simp only [true_iff]
      exact ⟨y, List.mem_cons_self _ _, hy⟩
    · rw [if_neg hy, ih]
      constructor
      · rintro ⟨x, hx, hf⟩
        exact ⟨x, List.mem_cons_of_mem _ hx, hf⟩
      · rintro ⟨x, hx, hf⟩
        rcases List.mem_cons.mp hx with h1 | h1
        · subst h1
          exact absurd hf hy
        · exact ⟨x, h1, hf⟩

/-- When no writer of the list raises, the write that may panic is the write in
which every `Write` returns. -/
theorem WriteRaising_eq_Write (raises : Writer → Bool) (ws : List Writer) (p : String)
    (w : World) (h : ∀ x ∈ ws, raises x = false) :
    io.multiWriter.WriteRaising raises ws p w = some (io.multiWriter.Write ws p w) := by
  induction ws generalizing w with
  | nil => rfl
  | cons y rest ih =>
    have hy : ¬ raises y = true := by
      rw [h y (List.mem_cons_self _ _)]
      simp
    unfold io.multiWriter.WriteRaising io.multiWriter.Write
    rw [if_neg hy]
    by_cases hf : w.failing y = true
    · rw [if_pos hf, if_pos hf]
    · rw [if_neg hf, if_neg hf]
      exact ih _ (fun x hx => h x (List.mem_cons_of_mem _ hx))

/-- A multi-writer write panics exactly when it reaches a writer that raises:
one that is listed after writers that neither raise nor report an error. -/
theorem WriteRaising_none_iff (raises : Writer → Bool) (ws : List Writer) (p : String)
    (w : World) :
    io.multiWriter.WriteRaising raises ws p w = none ↔
      ∃ pre x post, ws = pre ++ x :: post ∧ raises x = true ∧
        ∀ y ∈ pre, raises y = false ∧ w.failing y = false := by
  induction ws generalizing w with
  | nil =>
    constructor
    · intro h
      simp [io.multiWriter.WriteRaising] at h
    · rintro ⟨pre, x, post, h, _, _⟩
      simp at h
  | cons z rest ih =>
    unfold io.multiWriter.WriteRaising
    by_cases hz : raises z = true
    · rw [if_pos hz]
      simp only [true_iff]
      exact ⟨[], z, rest, rfl, hz, by simp⟩
    · rw [if_neg hz]
      by_cases hf : w.failing z = true
      · rw [if_pos hf]
        constructor
        · intro h
          simp at h
        · rintro ⟨pre, x, post, hsplit, hx, hpre⟩
          cases pre with
          | nil =>
            simp only [List.nil_append, List.cons.injEq] at hsplit
            rw [← hsplit.1] at hx
            exact absurd hx hz
          | cons y pre2 =>
            simp only [List.cons_append, List.cons.injEq] at hsplit
            have hy := (hpre y (List.mem_cons_self _ _)).2
            rw [← hsplit.1, hf] at hy
            simp at hy
      · rw [if_neg hf, ih]
        constructor
        · rintro ⟨pre, x, post, hsplit, hx, hpre⟩
          refine ⟨z :: pre, x, post, by rw [hsplit]; rfl, hx, ?_⟩
          intro y hy
          rcases List.mem_cons.mp hy with h1 | h1
          · subst h1
            exact ⟨by simpa using hz, by simpa using hf⟩
          · exact hpre y h1
        · rintro ⟨pre, x, post, hsplit, hx, hpre⟩
          cases pre with
          | nil =>
            simp only [List.nil_append, List.cons.injEq] at hsplit
            rw [← hsplit.1] at hx
            exact absurd hx hz
          | cons y pre2 =>
            simp only [List.cons_append, List.cons.injEq] at hsplit
            exact ⟨pre2, x, post, hsplit.2, hx,
              fun u hu => hpre u (List.mem_cons_of_mem _ hu)⟩

/-- C15, as stated, fails for a nil destination: with the Critical destinations
set to one writer on which `Write` panics (the nil interface value),
`NewLogger` returns a logger with its six entries, and `Critical("x")` and
`Criticalf("x")` panic. -/
theorem C15_nil_destination_panics :
    (NewLogger levelKeys LogLevelDebug
        ([OptionCall.critical ⟨[Writer.sink 0], "", 0⟩].map
          OptionCall.toOption)).outputs LogLevelCritical
      = some (log.New (io.MultiWriter [Writer.sink 0]) "[CRITICAL]" 11) ∧
    (NewLogger levelKeys LogLevelDebug
        ([OptionCall.critical ⟨[Writer.sink 0], "", 0⟩].map
          OptionCall.toOption)).CriticalRaising
      (fun x => decide (x = Writer.sink 0)) [⟨"x", true⟩]
      ⟨fun _ => "", fun f _ => f⟩ ⟨fun _ => [], fun _ => false⟩ = none ∧
    (NewLogger levelKeys LogLevelDebug
        ([OptionCall.critical ⟨[Writer.sink 0], "", 0⟩].map
          OptionCall.toOption)).CriticalfRaising
      (fun x => decide (x = Writer.sink 0)) "x" []
      ⟨fun _ => "", fun f _ => f⟩ ⟨fun _ => [], fun _ => false⟩ = none := by
  refine ⟨by decide, rfl, rfl⟩

/-- C15, amended: for every visiting order, minimum level and option list
`NewLogger` returns a logger with an entry for each of the six levels, and for
every template, argument list (empty or not) and state of the sinks, an
operation whose level has no destination on which `Write` panics (no nil
writer, no sink with a panicking `Write`) returns: its result is the state the
write leaves, and the error the write reports (which it does exactly when a
destination reports one) is dropped.  An operation panics exactly when its
write reaches a destination that raises. -/
theorem C15_no_failure_without_raising_sink (visit : List LogLevel) (minLevel : LogLevel)
    (opts : List LoggerOption) (raises : Writer → Bool) (format : String) (v : List any)
    (env : Env) (w : World) (l : logger) (hl : l = NewLogger visit minLevel opts) :
    (∀ L, L ∈ levelKeys →
      ∃ logOutput, l.outputs L = some logOutput ∧
        ((∀ x ∈ logOutput.out.writers, raises x = false) →
          l.logRaising raises L v env w = some (l.log L v env w) ∧
          l.logfRaising raises L format v env w = some (l.logf L format v env w)) ∧
        l.log L v env w = (logOutput.Output 3 (fmt.Sprint v) env w).1 ∧
        l.logf L format v env w = (logOutput.Output 3 (env.Sprintf format v) env w).1 ∧
        (∀ s, (logOutput.Output 3 s env w).2 = true
          ↔ ∃ x ∈ logOutput.out.writers, w.failing x = true) ∧
        (l.logRaising raises L v env w = none ↔
          ∃ pre x post, logOutput.out.writers = pre ++ x :: post ∧ raises x = true ∧
            ∀ y ∈ pre, raises y = false ∧ w.failing y = false) ∧
        (l.logfRaising raises L format v env w = none ↔
          ∃ pre x post, logOutput.out.writers = pre ++ x :: post ∧ raises x = true ∧
            ∀ y ∈ pre, raises y = false ∧ w.failing y = false)) ∧
    (∀ logOutput, l.outputs LogLevelCritical = some logOutput →
      (∀ x ∈ logOutput.out.writers, raises x = false) →
      l.CriticalRaising raises v env w = some (l.Critical v env w) ∧
      l.CriticalfRaising raises format v env w = some (l.Criticalf format v env w)) ∧
    (∀ logOutput, l.outputs LogLevelError = some logOutput →
      (∀ x ∈ logOutput.out.writers, raises x = false) →
      l.ErrorRaising raises v env w = some (l.Error v env w) ∧
      l.ErrorfRaising raises format v env w = some (l.Errorf format v env w)) ∧
    (∀ logOutput, l.outputs LogLevelWarning = some logOutput →
      (∀ x ∈ logOutput.out.writers, raises x = false) →
      l.WarningRaising raises v env w = some (l.Warning v env w) ∧
      l.WarningfRaising raises format v env w = some (l.Warningf format v env w)) ∧
    (∀ logOutput, l.outputs LogLevelNotice = some logOutput →
      (∀ x ∈ logOutput.out.writers, raises x = false) →
      l.NoticeRaising raises v env w = some (l.Notice v env w) ∧
      l.NoticefRaising raises format v env w = some (l.Noticef format v env w)) ∧
    (∀ logOutput, l.outputs LogLevelInfo = some logOutput →
      (∀ x ∈ logOutput.out.writers, raises x = false) →
      l.InfoRaising raises v env w = some (l.Info v env w) ∧
      l.InfofRaising raises format v env w = some (l.Infof format v env w)) ∧
    (∀ logOutput, l.outputs LogLevelDebug = some logOutput →
      (∀ x ∈ logOutput.out.writers, raises x = false) →
      l.DebugRaising raises v env w = some (l.Debug v env w) ∧
      l.DebugfRaising raises format v env w = some (l.Debugf format v env w)) := by
  subst hl
  have hgen : ∀ L logOutput, (NewLogger visit minLevel opts).outputs L = some logOutput →
      (∀ x ∈ logOutput.out.writers, raises x = false) →
      (NewLogger visit minLevel opts).logRaising raises L v env w
        = some ((NewLogger visit minLevel opts).log L v env w) ∧
      (NewLogger visit minLevel opts).logfRaising raises L format v env w
        = some ((NewLogger visit minLevel opts).logf L format v env w) := by
    intro L lo hlo hnr
    unfold logger.logRaising logger.logfRaising logger.log logger.logf
      log.Logger.OutputRaising log.Logger.Output
    rw [hlo]
    simp only []
    rw [WriteRaising_eq_Write raises _ _ w hnr, WriteRaising_eq_Write raises _ _ w hnr]
    exact ⟨rfl, rfl⟩
  have hnone : ∀ (lo : log.Logger) (s : String),
      (match lo.OutputRaising raises 3 s env w with
        | some r => some r.1
        | none => (none : Option World)) = none ↔
      ∃ pre x post, lo.out.writers = pre ++ x :: post ∧ raises x = true ∧
        ∀ y ∈ pre, raises y = false ∧ w.failing y = false := by
    intro lo s
    rw [← WriteRaising_none_iff raises lo.out.writers (lo.line s env) w]
    unfold log.Logger.OutputRaising
    cases io.multiWriter.WriteRaising raises lo.out.writers (lo.line s env) w <;> simp
  refine ⟨?_, hgen _, hgen _, hgen _, hgen _, hgen _, hgen _⟩
  intro L hL
  obtain ⟨lo, hlo⟩ :=
    Option.isSome_iff_exists.mp ((NewLogger_keys visit minLevel opts L).mpr hL)
  refine ⟨lo, hlo, hgen L lo hlo, ?_, ?_, fun s => Write_error_iff _ _ w, ?_, ?_⟩
  · unfold logger.log
    rw [hlo]
  · unfold logger.logf
    rw [hlo]
  · unfold logger.logRaising
    rw [hlo]
    exact hnone lo _
  · unfold logger.logfRaising
    rw [hlo]
    exact hnone lo _

theorem C15_no_failure_without_raising_sink_witness :
    (NewLogger levelKeys LogLevelDebug
        [SetErrorLoggerOpt ⟨[Writer.sink 0, Writer.sink 1], "", 0⟩]).ErrorRaising
      (fun x => decide (x = Writer.sink 7)) []
      ⟨fun _ => "", fun f _ => f⟩ ⟨fun _ => [], fun x => decide (x = Writer.sink 0)⟩
      = some ((NewLogger levelKeys LogLevelDebug
          [SetErrorLoggerOpt ⟨[Writer.sink 0, Writer.sink 1], "", 0⟩]).Error []
        ⟨fun _ => "", fun f _ => f⟩ ⟨fun _ => [], fun x => decide (x = Writer.sink 0)⟩) :=
  ((C15_no_failure_without_raising_sink levelKeys LogLevelDebug
    [SetErrorLoggerOpt ⟨[Writer.sink 0, Writer.sink 1], "", 0⟩]
    (fun x => decide (x = Writer.sink 7)) "%d %!" []
    ⟨fun _ => "", fun f _ => f⟩ ⟨fun _ => [], fun x => decide (x = Writer.sink 0)⟩
    _ rfl).2.2.1
      (log.New (io.MultiWriter [Writer.sink 0, Writer.sink 1]) "[ERROR]" 11)
      (by decide) (by decide)).1

/-! ## Determinism -/

/-- C16: `NewLogger` is a function of its arguments, and the order in which the
resolution loop visits the six keys of the configuration map does not matter:
for every two visiting orders of the six keys, every minimum level and every
option list, the two loggers are equal, and the entry of each of the six levels
is the pipeline of the resolved configuration. -/
theorem C16_order_independent (visit1 visit2 : List LogLevel)
    (h1 : visit1.Perm levelKeys) (h2 : visit2.Perm levelKeys) (minLevel : LogLevel)
    (calls : List OptionCall) :
    NewLogger visit1 minLevel (calls.map OptionCall.toOption)
      = NewLogger visit2 minLevel (calls.map OptionCall.toOption) ∧
    (∀ L, L ∈ levelKeys →
      (NewLogger visit1 minLevel (calls.map OptionCall.toOption)).outputs L
        = some (resolvedLogger minLevel calls L)) := by
  refine ⟨?_, fun L hL => NewLogger_entry visit1 h1 minLevel calls L hL⟩
  have hout : (NewLogger visit1 minLevel (calls.map OptionCall.toOption)).outputs
      = (NewLogger visit2 minLevel (calls.map OptionCall.toOption)).outputs := by
    funext k
    by_cases hk : k ∈ levelKeys
    · rw [NewLogger_entry visit1 h1 minLevel calls k hk,
        NewLogger_entry visit2 h2 minLevel calls k hk]
    · have hn : ∀ visit, (NewLogger visit minLevel (calls.map OptionCall.toOption)).outputs k
          = none := by
        intro visit
        cases h : (NewLogger visit minLevel (calls.map OptionCall.toOption)).outputs k with
        | none => rfl
        | some lo =>
          exact absurd ((NewLogger_keys visit minLevel _ k).mp (by rw [h]; rfl)) hk
      rw [hn visit1, hn visit2]
  cases hA : NewLogger visit1 minLevel (calls.map OptionCall.toOption) with
  | mk o1 =>
    cases hB : NewLogger visit2 minLevel (calls.map OptionCall.toOption) with
    | mk o2 =>
      rw [hA, hB] at hout
      simp only at hout
      rw [hout]

theorem C16_order_independent_witness :
    NewLogger levelKeys LogLevelNotice
        ([OptionCall.info ⟨[Writer.sink 3], "", 0⟩, OptionCall.defaultFlags 3].map
          OptionCall.toOption)
      = NewLogger levelKeys.reverse LogLevelNotice
        ([OptionCall.info ⟨[Writer.sink 3], "", 0⟩, OptionCall.defaultFlags 3].map
          OptionCall.toOption) :=
  (C16_order_independent levelKeys levelKeys.reverse (List.Perm.refl _)
    (List.reverse_perm _) LogLevelNotice
    [OptionCall.info ⟨[Writer.sink 3], "", 0⟩, OptionCall.defaultFlags 3]).1

/-! ## Suppression and overrides without destination -/

/-- C18: for every visiting order of the six keys, every minimum level and
every level `L < minLevel` whose last per-level option carries no destination,
the destinations resolved for `L` are empty, the resolved prefix is the prefix
of the option when it set one (else the label), and the resolved flags are the
flags of the option when it set some (else the default flags): an override
without destinations does not lift the suppression. -/
theorem C18_override_without_destinations (visit : List LogLevel)
    (hv : visit.Perm levelKeys) (minLevel : LogLevel) (pre post : List OptionCall)
    (L : LogLevel) (config : Config) (c : OptionCall)
    (hc : levelCall L config = some c) (hempty : config.Outputs = [])
    (hlt : L < minLevel) (hlast : ∀ d ∈ post, d.target ≠ Target.level L) :
    (NewLogger visit minLevel ((pre ++ c :: post).map OptionCall.toOption)).outputs L
      = some (log.New (io.MultiWriter [])
          (if config.Prefix = "" then LogLevel.String L else config.Prefix)
          (if config.Flags = 0 then (finalSettings (pre ++ c :: post)).DefaultFlags
           else config.Flags)) := by
  have hL : L ∈ levelKeys := (levelCall_spec L config c hc).1
  have hmin : ¬ L ≥ minLevel := not_le.mpr hlt
  rw [NewLogger_outputs visit hv minLevel (pre ++ c :: post) L hL, resolveConf_Outputs,
    resolveConf_Prefix, resolveConf_Flags, finalSettings_last pre post L config c hc hlast]
  simp only [hmin, and_false, if_false, hempty]

theorem C18_override_without_destinations_witness :
    (NewLogger levelKeys LogLevelError
      (([OptionCall.defaultFlags 3] ++ OptionCall.info ⟨[], "[quiet]", 0⟩ ::
        [OptionCall.defaultNonErrorOutput [Writer.sink 5]]).map
          OptionCall.toOption)).outputs LogLevelInfo
      = some (log.New (io.MultiWriter []) "[quiet]" 3) :=
  C18_override_without_destinations levelKeys (List.Perm.refl _) LogLevelError
    [OptionCall.defaultFlags 3] [OptionCall.defaultNonErrorOutput [Writer.sink 5]]
    LogLevelInfo ⟨[], "[quiet]", 0⟩ (OptionCall.info ⟨[], "[quiet]", 0⟩)
    (by decide) (by decide) (by decide) (by decide)

/-! ## Footprints -/

theorem agreeOff_refl (L : LogLevel) (s : settings) : agreeOff L s s :=
  ⟨rfl, rfl, rfl, fun _ _ => rfl⟩

/-- An option applied to two settings values that agree off `L` gives settings
values that agree off `L`. -/
theorem toOption_agreeOff (c : OptionCall) (L : LogLevel) (s t : settings)
    (h : agreeOff L s t) : agreeOff L (c.toOption s) (c.toOption t) := by
  obtain ⟨h1, h2, h3, h4⟩ := h
  cases c <;>
    simp only [OptionCall.toOption, SetCriticalLoggerOpt, SetErrorLoggerOpt,
      SetWarningLoggerOpt, SetNoticeLoggerOpt, SetInfoLoggerOpt, SetDebugLoggerOpt,
      SetDefaultErrorOutputsOpt, SetDefaultNonErrorOutputOpt, SetDefaultFlagsOpt] <;>
    first
      | exact ⟨h1, h2, h3, fun k hk => by simp only [mapSet, h4 k hk]⟩
      | exact ⟨rfl, h2, h3, h4⟩
      | exact ⟨h1, rfl, h3, h4⟩
      | exact ⟨h1, h2, rfl, h4⟩

/-- An option that targets `L` keeps a settings value in agreement off `L`. -/
theorem toOption_agreeOff_target (c : OptionCall) (L : LogLevel)
    (hc : c.target = Target.level L) (s t : settings) (h : agreeOff L s t) :
    agreeOff L (c.toOption s) t := by
  obtain ⟨h1, h2, h3, h4⟩ := h
  cases c <;> simp only [OptionCall.target, Target.level.injEq] at hc <;>
    first
      | (subst hc
         refine ⟨h1, h2, h3, fun k hk => ?_⟩
         simp only [OptionCall.toOption, SetCriticalLoggerOpt, SetErrorLoggerOpt,
           SetWarningLoggerOpt, SetNoticeLoggerOpt, SetInfoLoggerOpt, SetDebugLoggerOpt,
           mapSet, if_neg hk]
         exact h4 k hk)
      | exact absurd hc (by simp)

/-- Dropping from an option list the options that target `L` changes the final
settings on the record of `L` only. -/
theorem applyOpts_filter_agreeOff (calls : List OptionCall) (L : LogLevel)
    (s t : settings) (h : agreeOff L s t) :
    agreeOff L (applyOpts (calls.map OptionCall.toOption) s)
      (applyOpts ((calls.filter (fun d => decide (d.target ≠ Target.level L))).map
        OptionCall.toOption) t) := by
  induction calls generalizing s t with
  | nil => exact h
  | cons c rest ih =>
    by_cases hc : c.target = Target.level L
    · have hf : (c :: rest).filter (fun d => decide (d.target ≠ Target.level L))
          = rest.filter (fun d => decide (d.target ≠ Target.level L)) := by
        simp [List.filter_cons, hc]
      rw [hf, List.map_cons, applyOpts_cons]
      exact ih _ _ (toOption_agreeOff_target c L hc s t h)
    · have hf : (c :: rest).filter (fun d => decide (d.target ≠ Target.level L))
          = c :: rest.filter (fun d => decide (d.target ≠ Target.level L)) := by
        simp [List.filter_cons, hc]
      rw [hf, List.map_cons, List.map_cons, applyOpts_cons, applyOpts_cons]
      exact ih _ _ (toOption_agreeOff c L s t h)

/-- C19: an option writes to its target only.  The setter of level `L` puts its
configuration in the record of `L` and leaves the other records and the three
global defaults as they were; each global-default setter replaces its default
and leaves the other two defaults and the whole configuration map as they were.
So, for every visiting order of the six keys, every minimum level and every
level `M ≠ L` of the six, the entry resolved for `M` is the same with the
options that target `L` as without them. -/
theorem C19_disjoint_footprints (visit : List LogLevel) (hv : visit.Perm levelKeys)
    (minLevel : LogLevel) (calls : List OptionCall) (L M : LogLevel)
    (hM : M ∈ levelKeys) (hne : M ≠ L) (s : settings) :
    (∀ (K : LogLevel) (config : Config) (c : OptionCall), levelCall K config = some c →
      (c.toOption s).LogLevelConfigs K = some config ∧
      (∀ k, k ≠ K → (c.toOption s).LogLevelConfigs k = s.LogLevelConfigs k) ∧
      (c.toOption s).DefaultErrOutputs = s.DefaultErrOutputs ∧
      (c.toOption s).DefaultNonErrOutputs = s.DefaultNonErrOutputs ∧
      (c.toOption s).DefaultFlags = s.DefaultFlags) ∧
    (∀ outputs : List Writer,
      (SetDefaultErrorOutputsOpt outputs s).DefaultErrOutputs = outputs ∧
      (SetDefaultErrorOutputsOpt outputs s).DefaultNonErrOutputs = s.DefaultNonErrOutputs ∧
      (SetDefaultErrorOutputsOpt outputs s).DefaultFlags = s.DefaultFlags ∧
      (SetDefaultErrorOutputsOpt outputs s).LogLevelConfigs = s.LogLevelConfigs) ∧
    (∀ outputs : List Writer,
      (SetDefaultNonErrorOutputOpt outputs s).DefaultNonErrOutputs = outputs ∧
      (SetDefaultNonErrorOutputOpt outputs s).DefaultErrOutputs = s.DefaultErrOutputs ∧
      (SetDefaultNonErrorOutputOpt outputs s).DefaultFlags = s.DefaultFlags ∧
      (SetDefaultNonErrorOutputOpt outputs s).LogLevelConfigs = s.LogLevelConfigs) ∧
    (∀ flag : Int,
      (SetDefaultFlagsOpt flag s).DefaultFlags = flag ∧
      (SetDefaultFlagsOpt flag s).DefaultErrOutputs = s.DefaultErrOutputs ∧
      (SetDefaultFlagsOpt flag s).DefaultNonErrOutputs = s.DefaultNonErrOutputs ∧
      (SetDefaultFlagsOpt flag s).LogLevelConfigs = s.LogLevelConfigs) ∧
    (NewLogger visit minLevel (calls.map OptionCall.toOption)).outputs M
      = (NewLogger visit minLevel
          ((calls.filter (fun d => decide (d.target ≠ Target.level L))).map
            OptionCall.toOption)).outputs M := by
  refine ⟨?_, fun _ => ⟨rfl, rfl, rfl, rfl⟩, fun _ => ⟨rfl, rfl, rfl, rfl⟩,
    fun _ => ⟨rfl, rfl, rfl, rfl⟩, ?_⟩
  · intro K config c hc
    obtain ⟨_, _, hrun⟩ := levelCall_spec K config c hc
    rw [hrun s]
    refine ⟨by simp [mapSet], fun k hk => by simp [mapSet, hk], rfl, rfl, rfl⟩
  · obtain ⟨h1, h2, h3, h4⟩ := applyOpts_filter_agreeOff calls L initialSettings
      initialSettings (agreeOff_refl L initialSettings)
    have hconf : resolvedConf minLevel calls M
        = resolvedConf minLevel
            (calls.filter (fun d => decide (d.target ≠ Target.level L))) M := by
      unfold resolvedConf mapIndex finalSettings
      rw [h4 M hne]
      exact (resolveConf_congr minLevel _ _ h1 h2 h3 M _)
    rw [NewLogger_entry visit hv minLevel calls M hM,
      NewLogger_entry visit hv minLevel _ M hM]
    unfold resolvedLogger
    rw [hconf]

theorem C19_disjoint_footprints_witness :
    (NewLogger levelKeys LogLevelDebug
      ([OptionCall.error ⟨[Writer.sink 1], "[E]", 3⟩, OptionCall.info ⟨[], "[I]", 0⟩,
        OptionCall.error ⟨[], "", 0⟩].map OptionCall.toOption)).outputs LogLevelInfo
      = (NewLogger levelKeys LogLevelDebug
          (([OptionCall.error ⟨[Writer.sink 1], "[E]", 3⟩, OptionCall.info ⟨[], "[I]", 0⟩,
            OptionCall.error ⟨[], "", 0⟩].filter
              (fun d => decide (d.target ≠ Target.level LogLevelError))).map
            OptionCall.toOption)).outputs LogLevelInfo :=
  (C19_disjoint_footprints levelKeys (List.Perm.refl _) LogLevelDebug
    [OptionCall.error ⟨[Writer.sink 1], "[E]", 3⟩, OptionCall.info ⟨[], "[I]", 0⟩,
      OptionCall.error ⟨[], "", 0⟩]
    LogLevelError LogLevelInfo (by decide) (by decide) initialSettings).2.2.2.2

/-! ## Raising the minimum level -/

/-- C20: for every visiting order of the six keys, every option list, every
level `L` of the six and all minimum levels `m1 ≤ m2`, the prefix and the flags
resolved for `L` are the same under `m1` and `m2`, and the destinations
resolved under `m2` are empty or those resolved under `m1`; so a level with
destinations under `m2` has destinations under `m1`. -/
theorem C20_raising_min_only_suppresses (visit : List LogLevel)
    (hv : visit.Perm levelKeys) (calls : List OptionCall) (L : LogLevel)
    (hL : L ∈ levelKeys) (m1 m2 : LogLevel) (hle : m1 ≤ m2) :
    ∃ out1 out2 pfx flag,
      (NewLogger visit m1 (calls.map OptionCall.toOption)).outputs L
        = some (log.New (io.MultiWriter out1) pfx flag) ∧
      (NewLogger visit m2 (calls.map OptionCall.toOption)).outputs L
        = some (log.New (io.MultiWriter out2) pfx flag) ∧
      (out2 = [] ∨ out2 = out1) ∧ (out2 ≠ [] → out1 ≠ []) := by
  refine ⟨(resolvedConf m1 calls L).Outputs, (resolvedConf m2 calls L).Outputs,
    (resolvedConf m1 calls L).Prefix, (resolvedConf m1 calls L).Flags, ?_, ?_, ?_⟩
  · exact NewLogger_entry visit hv m1 calls L hL
  · rw [NewLogger_entry visit hv m2 calls L hL]
    unfold resolvedLogger resolvedConf
    rw [resolveConf_Prefix, resolveConf_Flags, resolveConf_Prefix, resolveConf_Flags]
  · have hkey : (resolvedConf m2 calls L).Outputs = []
        ∨ (resolvedConf m2 calls L).Outputs = (resolvedConf m1 calls L).Outputs := by
      unfold resolvedConf
      rw [resolveConf_Outputs, resolveConf_Outputs]
      by_cases he : (mapIndex (finalSettings calls).LogLevelConfigs L).Outputs.length = 0
      · by_cases h2 : L ≥ m2
        · have h1 : L ≥ m1 := le_trans hle h2
          right
          simp only [he, h1, h2, and_self, if_true]
        · left
          simp only [he, h2, and_false, if_false]
          exact List.length_eq_zero.mp he
      · right
        simp only [he, false_and, if_false]
    refine ⟨hkey, ?_⟩
    intro hne h1
    rcases hkey with h | h
    · exact hne h
    · exact hne (h.trans h1)

theorem C20_raising_min_only_suppresses_witness :
    ∃ out1 out2 pfx flag,
      (NewLogger levelKeys LogLevelInfo
        ([OptionCall.notice ⟨[], "[N]", 0⟩].map OptionCall.toOption)).outputs LogLevelNotice
        = some (log.New (io.MultiWriter out1) pfx flag) ∧
      (NewLogger levelKeys LogLevelError
        ([OptionCall.notice ⟨[], "[N]", 0⟩].map OptionCall.toOption)).outputs LogLevelNotice
        = some (log.New (io.MultiWriter out2) pfx flag) ∧
      (out2 = [] ∨ out2 = out1) ∧ (out2 ≠ [] → out1 ≠ []) :=
  C20_raising_min_only_suppresses levelKeys (List.Perm.refl _)
    [OptionCall.notice ⟨[], "[N]", 0⟩] LogLevelNotice (by decide)
    LogLevelInfo LogLevelError (by decide)

/-! ## Commuting options -/

/-- Two loggers with the same entries at the six levels are equal. -/
theorem NewLogger_ext (visit1 visit2 : List LogLevel) (m1 m2 : LogLevel)
    (opts1 opts2 : List LoggerOption)
    (h : ∀ L, L ∈ levelKeys →
      (NewLogger visit1 m1 opts1).outputs L = (NewLogger visit2 m2 opts2).outputs L) :
    NewLogger visit1 m1 opts1 = NewLogger visit2 m2 opts2 := by
  have hnone : ∀ visit m opts k, k ∉ levelKeys → (NewLogger visit m opts).outputs k = none := by
    intro visit m opts k hk
    cases hc : (NewLogger visit m opts).outputs k with
    | none => rfl
    | some lo => exact absurd ((NewLogger_keys visit m opts k).mp (by rw [hc]; rfl)) hk
  have hout : (NewLogger visit1 m1 opts1).outputs = (NewLogger visit2 m2 opts2).outputs := by
    funext k
    by_cases hk : k ∈ levelKeys
    · exact h k hk
    · rw [hnone visit1 m1 opts1 k hk, hnone visit2 m2 opts2 k hk]
  cases hA : NewLogger visit1 m1 opts1 with
  | mk o1 =>
    cases hB : NewLogger visit2 m2 opts2 with
    | mk o2 =>
      rw [hA, hB] at hout
      simp only at hout
      rw [hout]

/-- Permuting an option list in which no target occurs twice does not change
the settings the options produce. -/
theorem applyOpts_perm (calls1 calls2 : List OptionCall) (hp : calls1.Perm calls2)
    (hnd : (calls1.map OptionCall.target).Nodup) (s : settings) :
    applyOpts (calls1.map OptionCall.toOption) s
      = applyOpts (calls2.map OptionCall.toOption) s := by
  induction hp generalizing s with
  | nil => rfl
  | cons x _ ih =>
    rw [List.map_cons, List.map_cons, applyOpts_cons, applyOpts_cons]
    exact ih (List.nodup_cons.mp hnd).2 _
  | swap x y l =>
    have hxy : x.target ≠ y.target := by
      intro heq
      have := (List.nodup_cons.mp hnd).1
      apply this
      simp [heq]
    simp only [List.map_cons, applyOpts_cons]
    rw [toOption_comm y x hxy s]
  | trans h12 _ ih1 ih2 =>
    have hnd2 := ((h12.map OptionCall.target).nodup_iff).mp hnd
    rw [ih1 hnd s, ih2 hnd2 s]

/-- C21: two of the nine options with different targets (two levels, a level
and a global default, or two global defaults) commute on every settings value;
so for every visiting order and minimum level, two option lists that are
permutations of each other and in which no target occurs twice build the same
logger. -/
theorem C21_options_commute (visit : List LogLevel) (minLevel : LogLevel)
    (calls1 calls2 : List OptionCall) (hp : calls1.Perm calls2)
    (hnd : (calls1.map OptionCall.target).Nodup) :
    (∀ (c d : OptionCall) (s : settings), c.target ≠ d.target →
      d.toOption (c.toOption s) = c.toOption (d.toOption s)) ∧
    finalSettings calls1 = finalSettings calls2 ∧
    NewLogger visit minLevel (calls1.map OptionCall.toOption)
      = NewLogger visit minLevel (calls2.map OptionCall.toOption) := by
  have hs : applyOpts (calls1.map OptionCall.toOption) initialSettings
      = applyOpts (calls2.map OptionCall.toOption) initialSettings :=
    applyOpts_perm calls1 calls2 hp hnd initialSettings
  refine ⟨fun c d s h => toOption_comm c d (fun heq => h heq.symm) s, hs, ?_⟩
  unfold NewLogger resolvedSettings
  rw [hs]

theorem C21_options_commute_witness :
    NewLogger levelKeys LogLevelInfo
        ([OptionCall.defaultFlags 3, OptionCall.error ⟨[Writer.sink 1], "", 0⟩,
          OptionCall.info ⟨[], "[I]", 0⟩].map OptionCall.toOption)
      = NewLogger levelKeys LogLevelInfo
        ([OptionCall.defaultFlags 3, OptionCall.error ⟨[Writer.sink 1], "", 0⟩,
          OptionCall.info ⟨[], "[I]", 0⟩].reverse.map OptionCall.toOption) :=
  (C21_options_commute levelKeys LogLevelInfo
    [OptionCall.defaultFlags 3, OptionCall.error ⟨[Writer.sink 1], "", 0⟩,
      OptionCall.info ⟨[], "[I]", 0⟩]
    [OptionCall.defaultFlags 3, OptionCall.error ⟨[Writer.sink 1], "", 0⟩,
      OptionCall.info ⟨[], "[I]", 0⟩].reverse
    (List.reverse_perm _).symm (by decide)).2.2

/-! ## Minimum levels outside the six -/

/-- The loop body depends on the minimum level only through the test
`logLevel >= minLevel`. -/
theorem resolveConf_min_congr (m1 m2 : LogLevel) (s : settings) (L : LogLevel) (c : Config)
    (h : L ≥ m1 ↔ L ≥ m2) : resolveConf m1 s L c = resolveConf m2 s L c := by
  have hp : (L ≥ m1) = (L ≥ m2) := propext h
  unfold resolveConf
  simp only [hp]

/-- C22: `NewLogger` is total in `minLevel`.  For every visiting order of the
six keys and every option list: with a minimum level at or below Debug (zero
and the negative values included) the logger is the one built with minimum
level Debug; with a minimum level above Critical every level of the six whose
configuration carries no destination resolves to an empty destination set. -/
theorem C22_min_level_outside_range (visit : List LogLevel) (hv : visit.Perm levelKeys)
    (calls : List OptionCall) (minLevel : LogLevel) :
    (minLevel ≤ LogLevelDebug →
      NewLogger visit minLevel (calls.map OptionCall.toOption)
        = NewLogger visit LogLevelDebug (calls.map OptionCall.toOption)) ∧
    (minLevel > LogLevelCritical →
      ∀ L, L ∈ levelKeys →
        (mapIndex (finalSettings calls).LogLevelConfigs L).Outputs = [] →
        ∃ pfx flag,
          (NewLogger visit minLevel (calls.map OptionCall.toOption)).outputs L
            = some (log.New (io.MultiWriter []) pfx flag)) ∧
    NewLogger visit 0 (calls.map OptionCall.toOption)
      = NewLogger visit LogLevelDebug (calls.map OptionCall.toOption) ∧
    NewLogger visit (-1) (calls.map OptionCall.toOption)
      = NewLogger visit LogLevelDebug (calls.map OptionCall.toOption) := by
  have hlow : ∀ m : LogLevel, m ≤ LogLevelDebug →
      NewLogger visit m (calls.map OptionCall.toOption)
        = NewLogger visit LogLevelDebug (calls.map OptionCall.toOption) := by
    intro m hm
    apply NewLogger_ext
    intro L hL
    have h1 : (1 : Int) ≤ L := ((mem_levelKeys_iff_range L).mp hL).1
    have hd : L ≥ LogLevelDebug := h1
    have hmL : L ≥ m := le_trans hm hd
    rw [NewLogger_entry visit hv m calls L hL,
      NewLogger_entry visit hv LogLevelDebug calls L hL]
    unfold resolvedLogger resolvedConf
    rw [resolveConf_min_congr m LogLevelDebug _ L _ ⟨fun _ => hd, fun _ => hmL⟩]
  refine ⟨hlow minLevel, ?_, hlow 0 (by decide), hlow (-1) (by decide)⟩
  intro hhigh L hL hempty
  have h6 : L ≤ 6 := ((mem_levelKeys_iff_range L).mp hL).2
  have hc : (6 : Int) < minLevel := hhigh
  have hmin : ¬ L ≥ minLevel := not_le.mpr (lt_of_le_of_lt h6 hc)
  refine ⟨(resolvedConf minLevel calls L).Prefix, (resolvedConf minLevel calls L).Flags, ?_⟩
  rw [NewLogger_entry visit hv minLevel calls L hL]
  have hout : (resolvedConf minLevel calls L).Outputs = [] := by
    unfold resolvedConf
    rw [resolveConf_Outputs]
    simp only [hmin, and_false, if_false, hempty]
  unfold resolvedLogger
  rw [hout]

theorem C22_min_level_outside_range_witness :
    ∃ pfx flag,
      (NewLogger levelKeys 9
        ([OptionCall.error ⟨[], "[E]", 0⟩,
          OptionCall.info ⟨[Writer.sink 4], "", 0⟩].map OptionCall.toOption)).outputs
            LogLevelError
        = some (log.New (io.MultiWriter []) pfx flag) :=
  (C22_min_level_outside_range levelKeys (List.Perm.refl _)
    [OptionCall.error ⟨[], "[E]", 0⟩, OptionCall.info ⟨[Writer.sink 4], "", 0⟩] 9).2.1
    (by decide) LogLevelError (by decide) (by decide)

end jaglogger
